import Mathlib

/-!
Shallow embedding of the `Crowdfund` Solidity contract (src/unnamed/part_003)
of the crowd-funding DApp, together with proofs of the specification claims.

Modelling conventions:
* `address` is modelled as `Nat`; the zero address is `0` (a campaign exists
  iff its `creator` field is nonzero, exactly as the contract checks).
* `uint256` is modelled as `Nat`.  Solidity ^0.8 uses checked arithmetic that
  reverts on overflow/underflow; all additions in the contract are modelled as
  unbounded `Nat` additions, and the single subtraction
  (`totalContributed[msg.sender] -= bal` in `refund`) never underflows in
  reachable states because `totalContributed` dominates every single pledge
  record (this is made explicit by the ledger invariant below).
* Solidity mappings are total functions with zero/default values, exactly as
  in the EVM storage model.
* Each external function is a transaction: `require` failure reverts every
  state mutation of the call.  Operations therefore return
  `Except Err (…)`, and an error result carries no state: the caller keeps
  the pre-call state (`stepRes` below).  The external payout primitive
  `call{value: …}` is modelled by a Boolean oracle `transferOk`; a `false`
  result trips `require(sent, …)`, which reverts the call, including the
  state mutations performed before the transfer.
* `block.timestamp` and `msg.sender`/`msg.value` are explicit parameters of
  every operation.
-/

/-- `struct Campaign` of the contract. -/
structure Campaign where
  creator : Nat
  goal : Nat
  pledged : Nat
  startAt : Nat
  endAt : Nat
  claimed : Bool
  metadataURI : String
deriving Repr, DecidableEq

/-- `struct Reward` of the contract. -/
structure Reward where
  title : String
  description : String
  minimumContribution : Nat
  quantityAvailable : Nat
  claimedCount : Nat
deriving Repr, DecidableEq

/-- The zero-initialised `Campaign` struct returned by an EVM mapping for an
absent key. -/
def defaultCampaign : Campaign :=
  { creator := 0, goal := 0, pledged := 0, startAt := 0, endAt := 0,
    claimed := false, metadataURI := "" }

/-- The contract's storage: `campaignCount` and the four mappings. -/
structure State where
  campaignCount : Nat
  campaigns : Nat → Campaign
  campaignRewards : Nat → List Reward
  pledgedAmounts : Nat → Nat → Nat
  totalContributed : Nat → Nat

/-- The freshly deployed contract: every mapping holds default values. -/
def initState : State :=
  { campaignCount := 0
    campaigns := fun _ => defaultCampaign
    campaignRewards := fun _ => []
    pledgedAmounts := fun _ _ => 0
    totalContributed := fun _ => 0 }

/-- The revert reasons of the contract, named as in the specification's error
taxonomy (each constructor corresponds to one `require` message). -/
inductive Err where
  | InvalidGoal          -- "Goal must be > 0"
  | InvalidWindow        -- "Start must be before end"
  | WindowNotFuture      -- "Start must be now or future" / "End must be in the future"
  | CampaignNotFound     -- "Campaign does not exist"
  | NotCreator           -- "Only creator can add rewards" / "Not creator"
  | WindowAlreadyOpen    -- "Cannot add reward after campaign start"
  | CampaignInactive     -- "Campaign inactive"
  | ZeroAmount           -- "Must send ETH"
  | BelowRewardMinimum   -- "Contribution below reward minimum"
  | RewardSoldOut        -- "Reward sold out"
  | CampaignNotEnded     -- "Campaign not ended"
  | GoalNotReached       -- "Goal not reached"
  | AlreadySettled       -- "Already withdrawn"
  | GoalReached          -- "Goal reached, cannot refund"
  | NothingToRefund      -- "No contributions"
  | TransferFailed       -- "Transfer failed" / "Refund failed"
deriving Repr, DecidableEq

/-- The events the contract emits. -/
inductive Event where
  | CampaignCreated (id creator goal startAt endAt : Nat)
  | Pledged (id contributor amount : Nat)
  | Withdrawn (id amount : Nat)
  | Refunded (id contributor amount : Nat)
  | RewardClaimed (campaignId contributor rewardIndex : Nat)
deriving Repr, DecidableEq

/-- `createCampaign(_goal, _startAt, _endAt, _metadataURI)`:
the four `require`s in source order, then `campaignCount++`, storing the new
record at the new id, the `CampaignCreated` event, and the returned id. -/
def createCampaign (s : State) (sender now goal startAt endAt : Nat)
    (uri : String) : Except Err (State × Nat × List Event) :=
  if goal = 0 then .error .InvalidGoal
  else if ¬ startAt < endAt then .error .InvalidWindow
  else if ¬ now ≤ startAt then .error .WindowNotFuture
  else if ¬ now < endAt then .error .WindowNotFuture
  else
    let id := s.campaignCount + 1
    let c : Campaign :=
      { creator := sender, goal := goal, pledged := 0, startAt := startAt,
        endAt := endAt, claimed := false, metadataURI := uri }
    .ok ({ s with
            campaignCount := id
            campaigns := fun i => if i = id then c else s.campaigns i },
         id, [.CampaignCreated id sender goal startAt endAt])

/-- `addReward(_campaignId, _title, _description, _minimumContribution,
_quantityAvailable)`: three `require`s, then a push onto the campaign's
reward array.  The source emits no event in this function. -/
def addReward (s : State) (sender now campaignId : Nat)
    (title description : String) (minContribution qtyAvailable : Nat) :
    Except Err (State × List Event) :=
  let c := s.campaigns campaignId
  if c.creator = 0 then .error .CampaignNotFound
  else if ¬ sender = c.creator then .error .NotCreator
  else if ¬ now < c.startAt then .error .WindowAlreadyOpen
  else
    let r : Reward :=
      { title := title, description := description,
        minimumContribution := minContribution,
        quantityAvailable := qtyAvailable, claimedCount := 0 }
    .ok ({ s with
            campaignRewards := fun i =>
              if i = campaignId then s.campaignRewards campaignId ++ [r]
              else s.campaignRewards i },
         [])

/-- `pledge(_campaignId, _rewardIndex)` with `msg.value = value`:
existence/window/value `require`s; the optional reward branch (an in-range
index selects a tier, an out-of-range index means "no tier"); then the three
ledger additions and the `Pledged` event.  A claimed scarce tier additionally
emits `RewardClaimed` before `Pledged`, as in the source. -/
def pledge (s : State) (sender now value campaignId rewardIndex : Nat) :
    Except Err (State × List Event) :=
  let c := s.campaigns campaignId
  if c.creator = 0 then .error .CampaignNotFound
  else if ¬ (c.startAt ≤ now ∧ now ≤ c.endAt) then .error .CampaignInactive
  else if value = 0 then .error .ZeroAmount
  else
    let rewards := s.campaignRewards campaignId
    let rewardStep : Except Err (List Reward × List Event) :=
      if h : rewardIndex < rewards.length then
        let r := rewards[rewardIndex]
        if value < r.minimumContribution then .error .BelowRewardMinimum
        else if 0 < r.quantityAvailable then
          if r.claimedCount < r.quantityAvailable then
            .ok (rewards.set rewardIndex
                   { r with claimedCount := r.claimedCount + 1 },
                 [.RewardClaimed campaignId sender rewardIndex])
          else .error .RewardSoldOut
        else .ok (rewards, [])
      else .ok (rewards, [])
    match rewardStep with
    | .error e => .error e
    | .ok (rewards2, evs) =>
        .ok ({ s with
                campaignRewards := fun i =>
                  if i = campaignId then rewards2 else s.campaignRewards i
                pledgedAmounts := fun i a =>
                  if i = campaignId ∧ a = sender then
                    s.pledgedAmounts campaignId sender + value
                  else s.pledgedAmounts i a
                campaigns := fun i =>
                  if i = campaignId then { c with pledged := c.pledged + value }
                  else s.campaigns i
                totalContributed := fun a =>
                  if a = sender then s.totalContributed sender + value
                  else s.totalContributed a },
             evs ++ [.Pledged campaignId sender value])

/-- `withdraw(_campaignId)`: five `require`s, then (effects) `claimed := true`
and the amount capture — the `c.pledged = 0` reset is commented out in the
source — then (interaction) the transfer, whose failure reverts the whole
call, then the `Withdrawn` event.  The returned `Nat` is the amount handed to
the transfer primitive. -/
def withdraw (s : State) (sender now : Nat) (transferOk : Bool)
    (campaignId : Nat) : Except Err (State × Nat × List Event) :=
  let c := s.campaigns campaignId
  if c.creator = 0 then .error .CampaignNotFound
  else if ¬ sender = c.creator then .error .NotCreator
  else if ¬ c.endAt < now then .error .CampaignNotEnded
  else if ¬ c.goal ≤ c.pledged then .error .GoalNotReached
  else if c.claimed then .error .AlreadySettled
  else
    let s1 : State :=
      { s with campaigns := fun i =>
          if i = campaignId then { c with claimed := true } else s.campaigns i }
    let amount := c.pledged
    if transferOk then .ok (s1, amount, [.Withdrawn campaignId amount])
    else .error .TransferFailed

/-- `refund(_campaignId)`: four `require`s, then (effects) zeroing the
caller's pledge record and decrementing the caller's global total, then
(interaction) the transfer, whose failure reverts the whole call, then the
`Refunded` event.  The returned `Nat` is the amount handed back. -/
def refund (s : State) (sender now : Nat) (transferOk : Bool)
    (campaignId : Nat) : Except Err (State × Nat × List Event) :=
  let c := s.campaigns campaignId
  if c.creator = 0 then .error .CampaignNotFound
  else if ¬ c.endAt < now then .error .CampaignNotEnded
  else if c.goal ≤ c.pledged then .error .GoalReached
  else
    let bal := s.pledgedAmounts campaignId sender
    if bal = 0 then .error .NothingToRefund
    else
      let s1 : State :=
        { s with
            pledgedAmounts := fun i a =>
              if i = campaignId ∧ a = sender then 0 else s.pledgedAmounts i a
            totalContributed := fun a =>
              if a = sender then s.totalContributed sender - bal
              else s.totalContributed a }
      if transferOk then .ok (s1, bal, [.Refunded campaignId sender bal])
      else .error .TransferFailed

/-- One external transaction against the contract, with its environment
(`sender`, `now = block.timestamp`, `value = msg.value`, transfer outcome). -/
inductive Op where
  | create (sender now goal startAt endAt : Nat) (uri : String)
  | addReward (sender now campaignId : Nat) (title description : String)
      (minContribution qtyAvailable : Nat)
  | pledge (sender now value campaignId rewardIndex : Nat)
  | withdraw (sender now : Nat) (transferOk : Bool) (campaignId : Nat)
  | refund (sender now : Nat) (transferOk : Bool) (campaignId : Nat)

/-- The `block.timestamp` under which an operation runs. -/
def Op.now : Op → Nat
  | .create _ now _ _ _ _ => now
  | .addReward _ now _ _ _ _ _ => now
  | .pledge _ now _ _ _ => now
  | .withdraw _ now _ _ => now
  | .refund _ now _ _ => now

/-- Transactional execution of one operation: a reverted (error) transaction
leaves the storage unchanged and emits nothing. -/
def stepRes (s : State) : Op → State × List Event
  | .create sender now goal startAt endAt uri =>
      match createCampaign s sender now goal startAt endAt uri with
      | .ok (s2, _, evs) => (s2, evs)
      | .error _ => (s, [])
  | .addReward sender now campaignId title description minC qty =>
      match addReward s sender now campaignId title description minC qty with
      | .ok (s2, evs) => (s2, evs)
      | .error _ => (s, [])
  | .pledge sender now value campaignId rewardIndex =>
      match pledge s sender now value campaignId rewardIndex with
      | .ok (s2, evs) => (s2, evs)
      | .error _ => (s, [])
  | .withdraw sender now ok campaignId =>
      match withdraw s sender now ok campaignId with
      | .ok (s2, _, evs) => (s2, evs)
      | .error _ => (s, [])
  | .refund sender now ok campaignId =>
      match refund s sender now ok campaignId with
      | .ok (s2, _, evs) => (s2, evs)
      | .error _ => (s, [])

/-- Run a sequence of transactions from a state, collecting the emitted
events in order. -/
def runFrom (s : State) : List Op → State × List Event
  | [] => (s, [])
  | op :: ops =>
      let r1 := stepRes s op
      let r2 := runFrom r1.1 ops
      (r2.1, r1.2 ++ r2.2)

/-- Run a sequence of transactions against the freshly deployed contract. -/
def runTrace (tr : List Op) : State × List Event :=
  runFrom initState tr

/-! ### Success-state abbreviations

For each operation, the state produced by a successful call, named so that
the characterization lemmas below can state the exact effect of each
transaction. -/

/-- State after a successful `createCampaign`. -/
def createdState (s : State) (sender goal startAt endAt : Nat) (uri : String) :
    State :=
  { s with
      campaignCount := s.campaignCount + 1
      campaigns := fun i =>
        if i = s.campaignCount + 1 then
          { creator := sender, goal := goal, pledged := 0, startAt := startAt,
            endAt := endAt, claimed := false, metadataURI := uri }
        else s.campaigns i }

/-- State after a successful `addReward`. -/
def rewardAddedState (s : State) (campaignId : Nat) (r : Reward) : State :=
  { s with
      campaignRewards := fun i =>
        if i = campaignId then s.campaignRewards campaignId ++ [r]
        else s.campaignRewards i }

/-- State after a successful `pledge`; `rewards2` is the campaign's reward
array after the optional tier claim. -/
def pledgedState (s : State) (sender value campaignId : Nat)
    (rewards2 : List Reward) : State :=
  { s with
      campaignRewards := fun i =>
        if i = campaignId then rewards2 else s.campaignRewards i
      pledgedAmounts := fun i a =>
        if i = campaignId ∧ a = sender then
          s.pledgedAmounts campaignId sender + value
        else s.pledgedAmounts i a
      campaigns := fun i =>
        if i = campaignId then
          { s.campaigns campaignId with
              pledged := (s.campaigns campaignId).pledged + value }
        else s.campaigns i
      totalContributed := fun a =>
        if a = sender then s.totalContributed sender + value
        else s.totalContributed a }

/-- State after a successful `withdraw`: only the `claimed` flag changes. -/
def withdrawnState (s : State) (campaignId : Nat) : State :=
  { s with
      campaigns := fun i =>
        if i = campaignId then { s.campaigns campaignId with claimed := true }
        else s.campaigns i }

/-- State after a successful `refund` by `sender`. -/
def refundedState (s : State) (sender campaignId : Nat) : State :=
  { s with
      pledgedAmounts := fun i a =>
        if i = campaignId ∧ a = sender then 0 else s.pledgedAmounts i a
      totalContributed := fun a =>
        if a = sender then
          s.totalContributed sender - s.pledgedAmounts campaignId sender
        else s.totalContributed a }

/-! ### Characterization of one transaction -/

/-- A `create` transaction either reverts (state unchanged, no events) or
satisfies all four `require`s and produces exactly `createdState`. -/
theorem stepRes_create_cases (s : State) (sender now goal startAt endAt : Nat)
    (uri : String) :
    stepRes s (.create sender now goal startAt endAt uri) = (s, []) ∨
    (goal ≠ 0 ∧ startAt < endAt ∧ now ≤ startAt ∧ now < endAt ∧
      stepRes s (.create sender now goal startAt endAt uri) =
        (createdState s sender goal startAt endAt uri,
         [.CampaignCreated (s.campaignCount + 1) sender goal startAt endAt])) := by
  by_cases h1 : goal = 0
  · exact Or.inl (by simp [stepRes, createCampaign, h1])
  by_cases h2 : startAt < endAt
  case neg => exact Or.inl (by simp [stepRes, createCampaign, h1, h2])
  by_cases h3 : now ≤ startAt
  case neg => exact Or.inl (by simp [stepRes, createCampaign, h1, h2, h3])
  by_cases h4 : now < endAt
  case neg => exact Or.inl (by simp [stepRes, createCampaign, h1, h2, h3, h4])
  exact Or.inr ⟨h1, h2, h3, h4,
    by simp [stepRes, createCampaign, h1, h2, h3, h4, createdState]⟩

/-- An `addReward` transaction either reverts or satisfies the three
`require`s and appends one fresh tier, emitting no event. -/
theorem stepRes_addReward_cases (s : State) (sender now campaignId : Nat)
    (title description : String) (minContribution qtyAvailable : Nat) :
    stepRes s (.addReward sender now campaignId title description
        minContribution qtyAvailable) = (s, []) ∨
    ((s.campaigns campaignId).creator ≠ 0 ∧
      sender = (s.campaigns campaignId).creator ∧
      now < (s.campaigns campaignId).startAt ∧
      stepRes s (.addReward sender now campaignId title description
          minContribution qtyAvailable) =
        (rewardAddedState s campaignId
          { title := title, description := description,
            minimumContribution := minContribution,
            quantityAvailable := qtyAvailable, claimedCount := 0 },
         [])) := by
  by_cases h1 : (s.campaigns campaignId).creator = 0
  · exact Or.inl (by simp [stepRes, addReward, h1])
  by_cases h2 : sender = (s.campaigns campaignId).creator
  case neg => exact Or.inl (by simp [stepRes, addReward, h1, h2])
  by_cases h3 : now < (s.campaigns campaignId).startAt
  case neg => exact Or.inl (by simp [stepRes, addReward, h1, h2, h3])
  exact Or.inr ⟨h1, h2, h3,
    by simp [stepRes, addReward, h1, h2, h3, rewardAddedState]⟩

/-- A `withdraw` transaction either reverts or satisfies all five `require`s
together with a successful transfer, flips `claimed`, and emits one
`Withdrawn` event carrying the pre-call `pledged` amount. -/
theorem stepRes_withdraw_cases (s : State) (sender now : Nat)
    (transferOk : Bool) (campaignId : Nat) :
    stepRes s (.withdraw sender now transferOk campaignId) = (s, []) ∨
    ((s.campaigns campaignId).creator ≠ 0 ∧
      sender = (s.campaigns campaignId).creator ∧
      (s.campaigns campaignId).endAt < now ∧
      (s.campaigns campaignId).goal ≤ (s.campaigns campaignId).pledged ∧
      (s.campaigns campaignId).claimed = false ∧
      transferOk = true ∧
      stepRes s (.withdraw sender now transferOk campaignId) =
        (withdrawnState s campaignId,
         [.Withdrawn campaignId (s.campaigns campaignId).pledged])) := by
  by_cases h1 : (s.campaigns campaignId).creator = 0
  · exact Or.inl (by simp [stepRes, withdraw, h1])
  by_cases h2 : sender = (s.campaigns campaignId).creator
  case neg => exact Or.inl (by simp [stepRes, withdraw, h1, h2])
  by_cases h3 : (s.campaigns campaignId).endAt < now
  case neg => exact Or.inl (by simp [stepRes, withdraw, h1, h2, h3])
  by_cases h4 : (s.campaigns campaignId).goal ≤ (s.campaigns campaignId).pledged
  case neg => exact Or.inl (by simp [stepRes, withdraw, h1, h2, h3, h4])
  by_cases h5 : (s.campaigns campaignId).claimed
  · exact Or.inl (by simp [stepRes, withdraw, h1, h2, h3, h4, h5])
  by_cases h6 : transferOk
  case neg => exact Or.inl (by simp [stepRes, withdraw, h1, h2, h3, h4, h5, h6])
  exact Or.inr ⟨h1, h2, h3, h4, by simpa using h5, by simpa using h6,
    by simp [stepRes, withdraw, h1, h2, h3, h4, h5, h6, withdrawnState]⟩

/-- A `refund` transaction either reverts or satisfies all four `require`s
together with a successful transfer, zeroes the caller's pledge record,
decrements the caller's global total, and emits one `Refunded` event. -/
theorem stepRes_refund_cases (s : State) (sender now : Nat)
    (transferOk : Bool) (campaignId : Nat) :
    stepRes s (.refund sender now transferOk campaignId) = (s, []) ∨
    ((s.campaigns campaignId).creator ≠ 0 ∧
      (s.campaigns campaignId).endAt < now ∧
      (s.campaigns campaignId).pledged < (s.campaigns campaignId).goal ∧
      s.pledgedAmounts campaignId sender ≠ 0 ∧
      transferOk = true ∧
      stepRes s (.refund sender now transferOk campaignId) =
        (refundedState s sender campaignId,
         [.Refunded campaignId sender (s.pledgedAmounts campaignId sender)])) := by
  by_cases h1 : (s.campaigns campaignId).creator = 0
  · exact Or.inl (by simp [stepRes, refund, h1])
  by_cases h2 : (s.campaigns campaignId).endAt < now
  case neg => exact Or.inl (by simp [stepRes, refund, h1, h2])
  by_cases h3 : (s.campaigns campaignId).goal ≤ (s.campaigns campaignId).pledged
  · exact Or.inl (by simp [stepRes, refund, h1, h2, h3])
  by_cases h4 : s.pledgedAmounts campaignId sender = 0
  · exact Or.inl (by simp [stepRes, refund, h1, h2, h3, h4])
  by_cases h5 : transferOk
  case neg => exact Or.inl (by simp [stepRes, refund, h1, h2, h3, h4, h5])
  exact Or.inr ⟨h1, h2, Nat.lt_of_not_le h3, h4, by simpa using h5,
    by simp [stepRes, refund, h1, h2, h3, h4, h5, refundedState]⟩

/-- A `pledge` transaction either reverts, or passes the campaign checks and
then: claims no tier (out-of-range index, or an in-range unlimited tier)
emitting only `Pledged`, or claims a scarce tier, incrementing its
`claimedCount` and emitting `RewardClaimed` then `Pledged`. -/
theorem stepRes_pledge_cases (s : State)
    (sender now value campaignId rewardIndex : Nat) :
    stepRes s (.pledge sender now value campaignId rewardIndex) = (s, []) ∨
    ((s.campaigns campaignId).creator ≠ 0 ∧
      (s.campaigns campaignId).startAt ≤ now ∧
      now ≤ (s.campaigns campaignId).endAt ∧ value ≠ 0 ∧
      (((¬ rewardIndex < (s.campaignRewards campaignId).length ∨
          ∃ h : rewardIndex < (s.campaignRewards campaignId).length,
            (s.campaignRewards campaignId)[rewardIndex].minimumContribution
                ≤ value ∧
            (s.campaignRewards campaignId)[rewardIndex].quantityAvailable
                = 0) ∧
        stepRes s (.pledge sender now value campaignId rewardIndex) =
          (pledgedState s sender value campaignId
             (s.campaignRewards campaignId),
           [.Pledged campaignId sender value])) ∨
       (∃ h : rewardIndex < (s.campaignRewards campaignId).length,
         (s.campaignRewards campaignId)[rewardIndex].minimumContribution
             ≤ value ∧
         0 < (s.campaignRewards campaignId)[rewardIndex].quantityAvailable ∧
         (s.campaignRewards campaignId)[rewardIndex].claimedCount <
           (s.campaignRewards campaignId)[rewardIndex].quantityAvailable ∧
         stepRes s (.pledge sender now value campaignId rewardIndex) =
           (pledgedState s sender value campaignId
              ((s.campaignRewards campaignId).set rewardIndex
                { (s.campaignRewards campaignId)[rewardIndex] with
                    claimedCount :=
                      (s.campaignRewards campaignId)[rewardIndex].claimedCount
                        + 1 }),
            [.RewardClaimed campaignId sender rewardIndex,
             .Pledged campaignId sender value])))) := by
  by_cases h1 : (s.campaigns campaignId).creator = 0
  · exact Or.inl (by simp [stepRes, pledge, h1])
  by_cases h2 : (s.campaigns campaignId).startAt ≤ now ∧
      now ≤ (s.campaigns campaignId).endAt
  case neg => exact Or.inl (by simp [stepRes, pledge, h1, h2])
  by_cases h3 : value = 0
  · exact Or.inl (by simp [stepRes, pledge, h1, h2, h3])
  by_cases h4 : rewardIndex < (s.campaignRewards campaignId).length
  case neg =>
    refine Or.inr ⟨h1, h2.1, h2.2, h3, Or.inl ⟨Or.inl h4, ?_⟩⟩
    simp [stepRes, pledge, h1, h2, h3, h4, pledgedState]
  by_cases h5 : value <
      (s.campaignRewards campaignId)[rewardIndex].minimumContribution
  · exact Or.inl (by simp [stepRes, pledge, h1, h2, h3, h4, h5])
  by_cases h6 : 0 < (s.campaignRewards campaignId)[rewardIndex].quantityAvailable
  case neg =>
    refine Or.inr ⟨h1, h2.1, h2.2, h3,
      Or.inl ⟨Or.inr ⟨h4, Nat.le_of_not_lt h5, Nat.eq_zero_of_not_pos h6⟩, ?_⟩⟩
    simp [stepRes, pledge, h1, h2, h3, h4, h5, h6, pledgedState]
  by_cases h7 : (s.campaignRewards campaignId)[rewardIndex].claimedCount <
      (s.campaignRewards campaignId)[rewardIndex].quantityAvailable
  case neg => exact Or.inl (by simp [stepRes, pledge, h1, h2, h3, h4, h5, h6, h7])
  refine Or.inr ⟨h1, h2.1, h2.2, h3,
    Or.inr ⟨h4, Nat.le_of_not_lt h5, h6, h7, ?_⟩⟩
  simp [stepRes, pledge, h1, h2, h3, h4, h5, h6, h7, pledgedState]

/-! ### The allocation invariant -/

/-- Storage slots that were never allocated by `createCampaign` — the id `0`
and every id above `campaignCount` — hold only default values. -/
def AllocInv (s : State) : Prop :=
  ∀ id, (id = 0 ∨ s.campaignCount < id) →
    s.campaigns id = defaultCampaign ∧ ∀ a, s.pledgedAmounts id a = 0

theorem allocInv_init : AllocInv initState := by
  intro id _
  exact ⟨rfl, fun _ => rfl⟩

/-- An existing campaign (nonzero creator) lives at an allocated id. -/
theorem allocInv_exists_le {s : State} {cid : Nat} (hInv : AllocInv s)
    (h : (s.campaigns cid).creator ≠ 0) :
    cid ≠ 0 ∧ cid ≤ s.campaignCount := by
  by_cases h0 : cid = 0
  · exact absurd (by rw [(hInv cid (Or.inl h0)).1]; rfl) h
  by_cases hle : cid ≤ s.campaignCount
  · exact ⟨h0, hle⟩
  · exact absurd (by rw [(hInv cid (Or.inr (Nat.lt_of_not_le hle))).1]; rfl) h

/-- Every transaction preserves the allocation invariant. -/
theorem allocInv_step {s : State} (op : Op) (hInv : AllocInv s) :
    AllocInv (stepRes s op).1 := by
  cases op with
  | create sender now goal startAt endAt uri =>
      rcases stepRes_create_cases s sender now goal startAt endAt uri with
        h | ⟨_, _, _, _, h⟩
      · rw [h]; exact hInv
      · rw [h]
        intro id hid
        rcases hid with hid | hid
        · subst hid
          refine ⟨?_, (hInv 0 (Or.inl rfl)).2⟩
          simp only [createdState]
          have : ¬ (0 : Nat) = s.campaignCount + 1 := by omega
          simpa [this] using (hInv 0 (Or.inl rfl)).1
        · simp only [createdState] at hid ⊢
          have hgt : s.campaignCount < id := by omega
          have hne : ¬ id = s.campaignCount + 1 := by omega
          refine ⟨by simpa [hne] using (hInv id (Or.inr hgt)).1,
            (hInv id (Or.inr hgt)).2⟩
  | addReward sender now campaignId title description minC qty =>
      rcases stepRes_addReward_cases s sender now campaignId title description
          minC qty with h | ⟨_, _, _, h⟩
      · rw [h]; exact hInv
      · rw [h]
        intro id hid
        simp only [rewardAddedState]
        exact hInv id hid
  | pledge sender now value campaignId rewardIndex =>
      rcases stepRes_pledge_cases s sender now value campaignId rewardIndex with
        h | ⟨hex, _, _, _, hc⟩
      · rw [h]; exact hInv
      · have hcid := allocInv_exists_le hInv hex
        have hshape : ∃ rw2, stepRes s (.pledge sender now value campaignId
            rewardIndex) = (pledgedState s sender value campaignId rw2,
              (stepRes s (.pledge sender now value campaignId rewardIndex)).2) := by
          rcases hc with ⟨_, h⟩ | ⟨_, _, _, _, h⟩
          · exact ⟨_, by rw [h]⟩
          · exact ⟨_, by rw [h]⟩
        rcases hshape with ⟨rw2, h⟩
        rw [h]
        intro id hid
        replace hid : id = 0 ∨ s.campaignCount < id := hid
        simp only [pledgedState]
        have hne : ¬ id = campaignId := by
          rcases hid with hid | hid <;> omega
        constructor
        · simpa [hne] using (hInv id hid).1
        · intro a
          simp only [hne, false_and, if_neg, not_false_iff]
          exact (hInv id hid).2 a
  | withdraw sender now transferOk campaignId =>
      rcases stepRes_withdraw_cases s sender now transferOk campaignId with
        h | ⟨hex, _, _, _, _, _, h⟩
      · rw [h]; exact hInv
      · have hcid := allocInv_exists_le hInv hex
        rw [h]
        intro id hid
        replace hid : id = 0 ∨ s.campaignCount < id := hid
        simp only [withdrawnState]
        have hne : ¬ id = campaignId := by
          rcases hid with hid | hid <;> omega
        exact ⟨by simpa [hne] using (hInv id hid).1, (hInv id hid).2⟩
  | refund sender now transferOk campaignId =>
      rcases stepRes_refund_cases s sender now transferOk campaignId with
        h | ⟨hex, _, _, _, _, h⟩
      · rw [h]; exact hInv
      · have hcid := allocInv_exists_le hInv hex
        rw [h]
        intro id hid
        replace hid : id = 0 ∨ s.campaignCount < id := hid
        simp only [refundedState]
        have hne : ¬ id = campaignId := by
          rcases hid with hid | hid <;> omega
        refine ⟨(hInv id hid).1, fun a => ?_⟩
        simp only [hne, false_and, if_neg, not_false_iff]
        exact (hInv id hid).2 a

/-! ### Event counting -/

/-- Is this event a `Withdrawn` event of campaign `cid`? -/
def Event.isWithdrawnOn (cid : Nat) : Event → Bool
  | .Withdrawn i _ => decide (i = cid)
  | _ => false

/-- Is this event a `Refunded` event of campaign `cid`? -/
def Event.isRefundedOn (cid : Nat) : Event → Bool
  | .Refunded i _ _ => decide (i = cid)
  | _ => false

/-- Is this event a `RewardClaimed` event of tier `idx` of campaign `cid`? -/
def Event.isRewardClaimOn (cid idx : Nat) : Event → Bool
  | .RewardClaimed i _ j => decide (i = cid ∧ j = idx)
  | _ => false

/-- Number of `Withdrawn` events for campaign `cid` in a log. -/
def wCount (cid : Nat) (evs : List Event) : Nat :=
  (evs.filter (Event.isWithdrawnOn cid)).length

/-- Number of `Refunded` events for campaign `cid` in a log. -/
def rfCount (cid : Nat) (evs : List Event) : Nat :=
  (evs.filter (Event.isRefundedOn cid)).length

/-- Number of `RewardClaimed` events for tier `idx` of campaign `cid`. -/
def rcCount (cid idx : Nat) (evs : List Event) : Nat :=
  (evs.filter (Event.isRewardClaimOn cid idx)).length

theorem wCount_append (cid : Nat) (l1 l2 : List Event) :
    wCount cid (l1 ++ l2) = wCount cid l1 + wCount cid l2 := by
  simp [wCount, List.filter_append]

theorem rfCount_append (cid : Nat) (l1 l2 : List Event) :
    rfCount cid (l1 ++ l2) = rfCount cid l1 + rfCount cid l2 := by
  simp [rfCount, List.filter_append]

theorem rcCount_append (cid idx : Nat) (l1 l2 : List Event) :
    rcCount cid idx (l1 ++ l2) = rcCount cid idx l1 + rcCount cid idx l2 := by
  simp [rcCount, List.filter_append]

theorem wCount_pos_of_mem {cid amt : Nat} {evs : List Event}
    (h : Event.Withdrawn cid amt ∈ evs) : 1 ≤ wCount cid evs := by
  have : Event.Withdrawn cid amt ∈ evs.filter (Event.isWithdrawnOn cid) :=
    List.mem_filter.mpr ⟨h, by simp [Event.isWithdrawnOn]⟩
  have := List.length_pos.mpr (List.ne_nil_of_mem this)
  simpa [wCount] using this

theorem rfCount_pos_of_mem {cid a amt : Nat} {evs : List Event}
    (h : Event.Refunded cid a amt ∈ evs) : 1 ≤ rfCount cid evs := by
  have : Event.Refunded cid a amt ∈ evs.filter (Event.isRefundedOn cid) :=
    List.mem_filter.mpr ⟨h, by simp [Event.isRefundedOn]⟩
  have := List.length_pos.mpr (List.ne_nil_of_mem this)
  simpa [rfCount] using this

/-- Coarse form of the `pledge` characterization: on success the state is a
`pledgedState` and the log is an optional `RewardClaimed` followed by
`Pledged`. -/
theorem stepRes_pledge_cases2 (s : State)
    (sender now value campaignId rewardIndex : Nat) :
    stepRes s (.pledge sender now value campaignId rewardIndex) = (s, []) ∨
    ((s.campaigns campaignId).creator ≠ 0 ∧
      (s.campaigns campaignId).startAt ≤ now ∧
      now ≤ (s.campaigns campaignId).endAt ∧ value ≠ 0 ∧
      ∃ rewards2 evs1,
        stepRes s (.pledge sender now value campaignId rewardIndex) =
          (pledgedState s sender value campaignId rewards2,
           evs1 ++ [.Pledged campaignId sender value]) ∧
        (evs1 = [] ∨
         evs1 = [.RewardClaimed campaignId sender rewardIndex])) := by
  rcases stepRes_pledge_cases s sender now value campaignId rewardIndex with
    h | ⟨hex, hs, he, hv, ⟨_, h⟩ | ⟨_, _, _, _, h⟩⟩
  · exact Or.inl h
  · exact Or.inr ⟨hex, hs, he, hv, _, [], by simpa using h, Or.inl rfl⟩
  · exact Or.inr ⟨hex, hs, he, hv, _,
      [.RewardClaimed campaignId sender rewardIndex], by simpa using h,
      Or.inr rfl⟩

/-! ### Per-step persistence of campaign fields -/

/-- For an existing campaign, one transaction preserves `creator`, `goal`,
`startAt`, `endAt` and `metadataURI`, never decreases `pledged`, and can
change `pledged` only while running at a timestamp inside the campaign's
window. -/
theorem step_campaign_facts {s : State} {cid : Nat} (op : Op)
    (hInv : AllocInv s) (hex : (s.campaigns cid).creator ≠ 0) :
    ((stepRes s op).1.campaigns cid).creator = (s.campaigns cid).creator ∧
    ((stepRes s op).1.campaigns cid).goal = (s.campaigns cid).goal ∧
    ((stepRes s op).1.campaigns cid).startAt = (s.campaigns cid).startAt ∧
    ((stepRes s op).1.campaigns cid).endAt = (s.campaigns cid).endAt ∧
    ((stepRes s op).1.campaigns cid).metadataURI =
      (s.campaigns cid).metadataURI ∧
    (s.campaigns cid).pledged ≤ ((stepRes s op).1.campaigns cid).pledged ∧
    (((stepRes s op).1.campaigns cid).pledged ≠ (s.campaigns cid).pledged →
      op.now ≤ (s.campaigns cid).endAt) := by
  have hcid := allocInv_exists_le hInv hex
  cases op with
  | create sender now goal startAt endAt uri =>
      rcases stepRes_create_cases s sender now goal startAt endAt uri with
        h | ⟨_, _, _, _, h⟩
      · rw [h]; simp
      · rw [h]
        have hne : ¬ cid = s.campaignCount + 1 := by omega
        simp [createdState, hne]
  | addReward sender now campaignId title description minC qty =>
      rcases stepRes_addReward_cases s sender now campaignId title description
          minC qty with h | ⟨_, _, _, h⟩
      · rw [h]; simp
      · rw [h]; simp [rewardAddedState]
  | pledge sender now value campaignId rewardIndex =>
      rcases stepRes_pledge_cases2 s sender now value campaignId rewardIndex
        with h | ⟨_, _, he, _, rewards2, evs1, h, _⟩
      · rw [h]; simp
      · rw [h]
        by_cases hc : cid = campaignId
        · subst hc
          simp only [pledgedState, Op.now]
          refine ⟨by simp, by simp, by simp, by simp, by simp, by simp, ?_⟩
          intro _
          exact he
        · have hne : ¬ cid = campaignId := hc
          simp [pledgedState, hne]
  | withdraw sender now transferOk campaignId =>
      rcases stepRes_withdraw_cases s sender now transferOk campaignId with
        h | ⟨_, _, _, _, _, _, h⟩
      · rw [h]; simp
      · rw [h]
        by_cases hc : cid = campaignId
        · subst hc
          simp [withdrawnState]
        · have hne : ¬ cid = campaignId := hc
          simp [withdrawnState, hne]
  | refund sender now transferOk campaignId =>
      rcases stepRes_refund_cases s sender now transferOk campaignId with
        h | ⟨_, _, _, _, _, h⟩
      · rw [h]; simp
      · rw [h]; simp [refundedState]

/-! ### Settlement persistence -/

/-- A campaign on which `withdraw` has succeeded: it exists, its `claimed`
flag is set, and its goal is (still) covered. -/
def SettledSt (cid : Nat) (s : State) : Prop :=
  (s.campaigns cid).creator ≠ 0 ∧ (s.campaigns cid).claimed = true ∧
    (s.campaigns cid).goal ≤ (s.campaigns cid).pledged

/-- A campaign on which `refund` has succeeded at a timestamp `< t`: it
exists, missed its goal, and its window ended before `t`. -/
def RefundedSt (cid t : Nat) (s : State) : Prop :=
  (s.campaigns cid).creator ≠ 0 ∧
    (s.campaigns cid).pledged < (s.campaigns cid).goal ∧
    (s.campaigns cid).endAt < t

/-- Once a campaign is settled it stays settled, and no further transaction
can emit a `Withdrawn` or `Refunded` event for it. -/
theorem settled_step {s : State} {cid : Nat} (op : Op) (hInv : AllocInv s)
    (hS : SettledSt cid s) :
    SettledSt cid (stepRes s op).1 ∧ wCount cid (stepRes s op).2 = 0 ∧
      rfCount cid (stepRes s op).2 = 0 := by
  have hcid := allocInv_exists_le hInv hS.1
  cases op with
  | create sender now goal startAt endAt uri =>
      rcases stepRes_create_cases s sender now goal startAt endAt uri with
        h | ⟨_, _, _, _, h⟩
      · rw [h]; exact ⟨hS, rfl, rfl⟩
      · rw [h]
        have hne : ¬ cid = s.campaignCount + 1 := by omega
        refine ⟨?_, by simp [wCount, Event.isWithdrawnOn],
          by simp [rfCount, Event.isRefundedOn]⟩
        simpa only [SettledSt, createdState, if_neg hne] using hS
  | addReward sender now campaignId title description minC qty =>
      rcases stepRes_addReward_cases s sender now campaignId title description
          minC qty with h | ⟨_, _, _, h⟩
      · rw [h]; exact ⟨hS, rfl, rfl⟩
      · rw [h]
        exact ⟨hS, rfl, rfl⟩
  | pledge sender now value campaignId rewardIndex =>
      rcases stepRes_pledge_cases2 s sender now value campaignId rewardIndex
        with h | ⟨_, _, _, _, rewards2, evs1, h, hevs1⟩
      · rw [h]; exact ⟨hS, rfl, rfl⟩
      · rw [h]
        have hcounts : wCount cid (evs1 ++ [.Pledged campaignId sender value])
              = 0 ∧
            rfCount cid (evs1 ++ [.Pledged campaignId sender value]) = 0 := by
          rcases hevs1 with h1 | h1 <;> subst h1 <;>
            simp [wCount, rfCount, Event.isWithdrawnOn, Event.isRefundedOn]
        refine ⟨?_, hcounts.1, hcounts.2⟩
        by_cases hc : cid = campaignId
        · subst hc
          have hcc : (pledgedState s sender value cid rewards2).campaigns cid
              = { s.campaigns cid with
                    pledged := (s.campaigns cid).pledged + value } := by
            simp [pledgedState]
          refine ⟨?_, ?_, ?_⟩ <;> rw [hcc]
          · exact hS.1
          · exact hS.2.1
          · exact le_trans hS.2.2 (Nat.le_add_right _ _)
        · simpa only [SettledSt, pledgedState, if_neg hc] using hS
  | withdraw sender now transferOk campaignId =>
      rcases stepRes_withdraw_cases s sender now transferOk campaignId with
        h | ⟨_, _, _, _, hcl, _, h⟩
      · rw [h]; exact ⟨hS, rfl, rfl⟩
      · have hc : ¬ cid = campaignId := by
          intro hc
          rw [hc] at hS
          rw [hS.2.1] at hcl
          exact Bool.noConfusion hcl
        rw [h]
        refine ⟨by simpa only [SettledSt, withdrawnState, if_neg hc] using hS,
          ?_, by simp [rfCount, Event.isRefundedOn]⟩
        have : ¬ campaignId = cid := fun hcc => hc hcc.symm
        simp [wCount, Event.isWithdrawnOn, this]
  | refund sender now transferOk campaignId =>
      rcases stepRes_refund_cases s sender now transferOk campaignId with
        h | ⟨_, _, hlt, _, _, h⟩
      · rw [h]; exact ⟨hS, rfl, rfl⟩
      · have hc : ¬ cid = campaignId := by
          intro hc
          rw [hc] at hS
          exact absurd hS.2.2 (Nat.not_le_of_lt hlt)
        rw [h]
        refine ⟨hS, by simp [wCount, Event.isWithdrawnOn], ?_⟩
        have : ¬ campaignId = cid := fun hcc => hc hcc.symm
        simp [rfCount, Event.isRefundedOn, this]

/-- Once a campaign has missed its goal and its window has ended (before
`t`), any transaction running at a timestamp `≥ t` leaves the campaign
record unchanged in this respect and cannot emit a `Withdrawn` event for
it. -/
theorem refunded_step {s : State} {cid t : Nat} (op : Op) (hInv : AllocInv s)
    (hR : RefundedSt cid t s) (ht : t ≤ op.now) :
    RefundedSt cid t (stepRes s op).1 ∧ wCount cid (stepRes s op).2 = 0 := by
  have hcid := allocInv_exists_le hInv hR.1
  cases op with
  | create sender now goal startAt endAt uri =>
      rcases stepRes_create_cases s sender now goal startAt endAt uri with
        h | ⟨_, _, _, _, h⟩
      · rw [h]; exact ⟨hR, rfl⟩
      · rw [h]
        have hne : ¬ cid = s.campaignCount + 1 := by omega
        exact ⟨by simpa only [RefundedSt, createdState, if_neg hne] using hR,
          by simp [wCount, Event.isWithdrawnOn]⟩
  | addReward sender now campaignId title description minC qty =>
      rcases stepRes_addReward_cases s sender now campaignId title description
          minC qty with h | ⟨_, _, _, h⟩
      · rw [h]; exact ⟨hR, rfl⟩
      · rw [h]; exact ⟨hR, rfl⟩
  | pledge sender now value campaignId rewardIndex =>
      rcases stepRes_pledge_cases2 s sender now value campaignId rewardIndex
        with h | ⟨_, _, hnow, _, rewards2, evs1, h, hevs1⟩
      · rw [h]; exact ⟨hR, rfl⟩
      · have hc : ¬ cid = campaignId := by
          intro hc
          rw [hc] at hR
          obtain ⟨-, -, hR3⟩ := hR
          have ht2 : t ≤ now := ht
          omega
        rw [h]
        refine ⟨by simpa only [RefundedSt, pledgedState, if_neg hc] using hR, ?_⟩
        rcases hevs1 with h1 | h1 <;> subst h1 <;>
          simp [wCount, Event.isWithdrawnOn]
  | withdraw sender now transferOk campaignId =>
      rcases stepRes_withdraw_cases s sender now transferOk campaignId with
        h | ⟨_, _, _, hge, _, _, h⟩
      · rw [h]; exact ⟨hR, rfl⟩
      · have hc : ¬ cid = campaignId := by
          intro hc
          rw [hc] at hR
          obtain ⟨-, hR2, -⟩ := hR
          omega
        rw [h]
        refine ⟨by simpa only [RefundedSt, withdrawnState, if_neg hc] using hR,
          ?_⟩
        have : ¬ campaignId = cid := fun hcc => hc hcc.symm
        simp [wCount, Event.isWithdrawnOn, this]
  | refund sender now transferOk campaignId =>
      rcases stepRes_refund_cases s sender now transferOk campaignId with
        h | ⟨_, _, _, _, _, h⟩
      · rw [h]; exact ⟨hR, rfl⟩
      · rw [h]
        exact ⟨hR, by simp [wCount, Event.isWithdrawnOn]⟩

/-- One transaction emits at most one `Withdrawn` event for `cid`; when it
does, the campaign's flag was clear before the call, the campaign is settled
afterwards, and no `Refunded` event for `cid` is emitted by the same call. -/
theorem wCount_step {s : State} {cid : Nat} (op : Op) :
    wCount cid (stepRes s op).2 ≤ 1 ∧
    (1 ≤ wCount cid (stepRes s op).2 →
      (s.campaigns cid).claimed = false ∧ SettledSt cid (stepRes s op).1 ∧
        rfCount cid (stepRes s op).2 = 0 ∧
        (∀ amt, Event.Withdrawn cid amt ∈ (stepRes s op).2 →
          amt = (s.campaigns cid).pledged)) := by
  cases op with
  | create sender now goal startAt endAt uri =>
      rcases stepRes_create_cases s sender now goal startAt endAt uri with
        h | ⟨_, _, _, _, h⟩ <;> rw [h] <;>
        simp [wCount, Event.isWithdrawnOn]
  | addReward sender now campaignId title description minC qty =>
      rcases stepRes_addReward_cases s sender now campaignId title description
          minC qty with h | ⟨_, _, _, h⟩ <;> rw [h] <;>
        simp [wCount, Event.isWithdrawnOn]
  | pledge sender now value campaignId rewardIndex =>
      rcases stepRes_pledge_cases2 s sender now value campaignId rewardIndex
        with h | ⟨_, _, _, _, rewards2, evs1, h, hevs1⟩
      · rw [h]; simp [wCount, Event.isWithdrawnOn]
      · rw [h]
        rcases hevs1 with h1 | h1 <;> subst h1 <;>
          simp [wCount, Event.isWithdrawnOn]
  | withdraw sender now transferOk campaignId =>
      rcases stepRes_withdraw_cases s sender now transferOk campaignId with
        h | ⟨hex, _, _, hge, hcl, _, h⟩
      · rw [h]; simp [wCount, Event.isWithdrawnOn]
      · rw [h]
        by_cases hc : campaignId = cid
        · subst hc
          refine ⟨by simp [wCount, Event.isWithdrawnOn], fun _ => ⟨hcl, ?_, ?_, ?_⟩⟩
          · exact ⟨by simpa [withdrawnState] using hex,
              by simp [withdrawnState],
              by simpa [withdrawnState] using hge⟩
          · simp [rfCount, Event.isRefundedOn]
          · intro amt hmem
            simpa using hmem
        · simp [wCount, Event.isWithdrawnOn, hc]
  | refund sender now transferOk campaignId =>
      rcases stepRes_refund_cases s sender now transferOk campaignId with
        h | ⟨_, _, _, _, _, h⟩ <;> rw [h] <;>
        simp [wCount, Event.isWithdrawnOn]

/-- When a transaction emits a `Refunded` event for `cid`, the campaign has
missed its goal, its window ended before the transaction's timestamp, and no
`Withdrawn` event for `cid` is emitted by the same call. -/
theorem rfCount_step {s : State} {cid : Nat} (op : Op)
    (h1 : 1 ≤ rfCount cid (stepRes s op).2) :
    RefundedSt cid op.now (stepRes s op).1 ∧
      wCount cid (stepRes s op).2 = 0 := by
  cases op with
  | create sender now goal startAt endAt uri =>
      rcases stepRes_create_cases s sender now goal startAt endAt uri with
        h | ⟨_, _, _, _, h⟩ <;> rw [h] at h1 <;>
        simp [rfCount, Event.isRefundedOn] at h1
  | addReward sender now campaignId title description minC qty =>
      rcases stepRes_addReward_cases s sender now campaignId title description
          minC qty with h | ⟨_, _, _, h⟩ <;> rw [h] at h1 <;>
        simp [rfCount, Event.isRefundedOn] at h1
  | pledge sender now value campaignId rewardIndex =>
      rcases stepRes_pledge_cases2 s sender now value campaignId rewardIndex
        with h | ⟨_, _, _, _, rewards2, evs1, h, hevs1⟩
      · rw [h] at h1; simp [rfCount, Event.isRefundedOn] at h1
      · rw [h] at h1
        rcases hevs1 with he | he <;> subst he <;>
          simp [rfCount, Event.isRefundedOn] at h1
  | withdraw sender now transferOk campaignId =>
      rcases stepRes_withdraw_cases s sender now transferOk campaignId with
        h | ⟨_, _, _, _, _, _, h⟩ <;> rw [h] at h1 <;>
        simp [rfCount, Event.isRefundedOn] at h1
  | refund sender now transferOk campaignId =>
      rcases stepRes_refund_cases s sender now transferOk campaignId with
        h | ⟨hex, hend, hlt, _, _, h⟩
      · rw [h] at h1; simp [rfCount, Event.isRefundedOn] at h1
      · by_cases hc : campaignId = cid
        · subst hc
          rw [h]
          refine ⟨⟨by simpa [refundedState] using hex,
            by simpa [refundedState] using hlt,
            by simpa [refundedState, Op.now] using hend⟩,
            by simp [wCount, Event.isWithdrawnOn]⟩
        · rw [h] at h1
          simp [rfCount, Event.isRefundedOn, hc] at h1

/-! ### Trace-level lemmas -/

theorem runFrom_allocInv {s : State} (ops : List Op) (hInv : AllocInv s) :
    AllocInv (runFrom s ops).1 := by
  induction ops generalizing s with
  | nil => exact hInv
  | cons op ops ih => exact ih (allocInv_step op hInv)

theorem runFrom_settled {s : State} {cid : Nat} (ops : List Op)
    (hInv : AllocInv s) (hS : SettledSt cid s) :
    SettledSt cid (runFrom s ops).1 ∧ wCount cid (runFrom s ops).2 = 0 ∧
      rfCount cid (runFrom s ops).2 = 0 := by
  induction ops generalizing s with
  | nil => exact ⟨hS, rfl, rfl⟩
  | cons op ops ih =>
      obtain ⟨hS1, hw1, hr1⟩ := settled_step op hInv hS
      obtain ⟨hS2, hw2, hr2⟩ := ih (allocInv_step op hInv) hS1
      refine ⟨hS2, ?_, ?_⟩
      · show wCount cid
          ((stepRes s op).2 ++ (runFrom (stepRes s op).1 ops).2) = 0
        rw [wCount_append, hw1, hw2]
      · show rfCount cid
          ((stepRes s op).2 ++ (runFrom (stepRes s op).1 ops).2) = 0
        rw [rfCount_append, hr1, hr2]

theorem runFrom_refunded {s : State} {cid t : Nat} (ops : List Op)
    (hInv : AllocInv s) (hR : RefundedSt cid t s)
    (ht : ∀ op ∈ ops, t ≤ op.now) :
    RefundedSt cid t (runFrom s ops).1 ∧ wCount cid (runFrom s ops).2 = 0 := by
  induction ops generalizing s with
  | nil => exact ⟨hR, rfl⟩
  | cons op ops ih =>
      obtain ⟨hR1, hw1⟩ := refunded_step op hInv hR (ht op (by simp))
      obtain ⟨hR2, hw2⟩ := ih (allocInv_step op hInv) hR1
        (fun op' hmem => ht op' (List.mem_cons_of_mem _ hmem))
      refine ⟨hR2, ?_⟩
      show wCount cid
        ((stepRes s op).2 ++ (runFrom (stepRes s op).1 ops).2) = 0
      rw [wCount_append, hw1, hw2]

/-- Over a whole trace, at most one `Withdrawn` event per campaign; if one
occurred, the campaign is settled in the final state. -/
theorem runFrom_wCount {s : State} {cid : Nat} (ops : List Op)
    (hInv : AllocInv s) :
    wCount cid (runFrom s ops).2 ≤ 1 ∧
    (1 ≤ wCount cid (runFrom s ops).2 → SettledSt cid (runFrom s ops).1) := by
  induction ops generalizing s with
  | nil =>
      refine ⟨by simp [wCount, runFrom], fun h => ?_⟩
      simp [wCount, runFrom] at h
  | cons op ops ih =>
      have hsplit : (runFrom s (op :: ops)).2 =
          (stepRes s op).2 ++ (runFrom (stepRes s op).1 ops).2 := rfl
      have hstate : (runFrom s (op :: ops)).1 =
          (runFrom (stepRes s op).1 ops).1 := rfl
      obtain ⟨ih1, ih2⟩ := ih (allocInv_step op hInv)
      by_cases h1 : 1 ≤ wCount cid (stepRes s op).2
      · obtain ⟨_, hS1, _, _⟩ := (wCount_step op).2 h1
        obtain ⟨hS2, hw2, _⟩ :=
          runFrom_settled ops (allocInv_step op hInv) hS1
        have hb := (@wCount_step s cid op).1
        constructor
        · rw [hsplit, wCount_append, hw2]
          omega
        · intro _
          rw [hstate]
          exact hS2
      · have h0 : wCount cid (stepRes s op).2 = 0 := by omega
        constructor
        · rw [hsplit, wCount_append, h0]
          simpa using ih1
        · intro hge
          rw [hsplit, wCount_append, h0] at hge
          rw [hstate]
          exact ih2 (by simpa using hge)

/-- Mutual exclusion of settlement outcomes along any trace whose
timestamps are non-decreasing. -/
theorem runFrom_excl {s : State} {cid : Nat} (ops : List Op)
    (hInv : AllocInv s)
    (hmono : List.Pairwise (· ≤ ·) (ops.map Op.now)) :
    ¬(1 ≤ wCount cid (runFrom s ops).2 ∧
      1 ≤ rfCount cid (runFrom s ops).2) := by
  induction ops generalizing s with
  | nil =>
      rintro ⟨h, -⟩
      simp [wCount, runFrom] at h
  | cons op ops ih =>
      rw [List.map_cons, List.pairwise_cons] at hmono
      obtain ⟨hle, hmono2⟩ := hmono
      rintro ⟨hw, hr⟩
      have hsplitW : wCount cid (runFrom s (op :: ops)).2 =
          wCount cid (stepRes s op).2 +
            wCount cid (runFrom (stepRes s op).1 ops).2 := by
        show wCount cid
          ((stepRes s op).2 ++ (runFrom (stepRes s op).1 ops).2) = _
        rw [wCount_append]
      have hsplitR : rfCount cid (runFrom s (op :: ops)).2 =
          rfCount cid (stepRes s op).2 +
            rfCount cid (runFrom (stepRes s op).1 ops).2 := by
        show rfCount cid
          ((stepRes s op).2 ++ (runFrom (stepRes s op).1 ops).2) = _
        rw [rfCount_append]
      rw [hsplitW] at hw
      rw [hsplitR] at hr
      by_cases h1 : 1 ≤ wCount cid (stepRes s op).2
      · obtain ⟨_, hS1, hrf1, _⟩ := (wCount_step op).2 h1
        obtain ⟨_, _, hr2⟩ := runFrom_settled ops (allocInv_step op hInv) hS1
        omega
      · by_cases h2 : 1 ≤ rfCount cid (stepRes s op).2
        · obtain ⟨hR1, _⟩ := rfCount_step op h2
          have ht : ∀ op2 ∈ ops, op.now ≤ op2.now := fun op2 hmem =>
            hle _ (List.mem_map_of_mem _ hmem)
          obtain ⟨_, hw2⟩ :=
            runFrom_refunded ops (allocInv_step op hInv) hR1 ht
          omega
        · exact ih (allocInv_step op hInv) hmono2 ⟨by omega, by omega⟩

/-! ### Conservation -/

/-- Two finite sets both containing the support of `f` give the same sum. -/
theorem sum_cover_eq {f : Nat → Nat} {S T : Finset Nat}
    (hS : ∀ a ∉ S, f a = 0) (hT : ∀ a ∉ T, f a = 0) :
    ∑ a in S, f a = ∑ a in T, f a := by
  have h1 : ∑ a in S, f a = ∑ a in S ∪ T, f a :=
    Finset.sum_subset Finset.subset_union_left (fun x _ hx => hS x hx)
  have h2 : ∑ a in T, f a = ∑ a in S ∪ T, f a :=
    Finset.sum_subset Finset.subset_union_right (fun x _ hx => hT x hx)
  rw [h1, h2]

/-- Adding `v` at one point `x` of a finitely supported function adds `v` to
the sum. -/
theorem sum_bump {f : Nat → Nat} {S : Finset Nat} (hS : ∀ a ∉ S, f a = 0)
    (x v : Nat) :
    ∑ a in insert x S, (if a = x then f x + v else f a) =
      (∑ a in S, f a) + v := by
  have hfun : (fun a => if a = x then f x + v else f a) =
      Function.update f x (f x + v) := by
    funext a
    rw [Function.update_apply]
  rw [show (∑ a in insert x S, (if a = x then f x + v else f a)) =
      ∑ a in insert x S, Function.update f x (f x + v) a from by rw [hfun]]
  rw [Finset.sum_update_of_mem (Finset.mem_insert_self x S)]
  rw [Finset.sdiff_singleton_eq_erase, Finset.erase_insert_eq_erase]
  by_cases hx : x ∈ S
  · have := Finset.add_sum_erase S f hx
    omega
  · rw [Finset.erase_eq_of_not_mem hx, hS x hx]
    omega

/-- Conservation at campaign `cid`: `pledged` equals the sum of the
per-contributor pledge records, which have finite support. -/
def ConsAt (s : State) (cid : Nat) : Prop :=
  ∃ S : Finset Nat, (∀ a ∉ S, s.pledgedAmounts cid a = 0) ∧
    (s.campaigns cid).pledged = ∑ a in S, s.pledgedAmounts cid a

theorem consAt_init (cid : Nat) : ConsAt initState cid :=
  ⟨∅, fun _ _ => rfl, rfl⟩

/-- Any transaction that emits no `Refunded` event for `cid` preserves
conservation at `cid`. -/
theorem consAt_step {s : State} {cid : Nat} (op : Op) (hInv : AllocInv s)
    (hC : ConsAt s cid) (hrf : rfCount cid (stepRes s op).2 = 0) :
    ConsAt (stepRes s op).1 cid := by
  obtain ⟨S, hcov, hsum⟩ := hC
  cases op with
  | create sender now goal startAt endAt uri =>
      rcases stepRes_create_cases s sender now goal startAt endAt uri with
        h | ⟨_, _, _, _, h⟩
      · rw [h]; exact ⟨S, hcov, hsum⟩
      · rw [h]
        by_cases hc : cid = s.campaignCount + 1
        · refine ⟨∅, fun a _ => ?_, ?_⟩
          · show s.pledgedAmounts cid a = 0
            exact (hInv cid (Or.inr (by omega))).2 a
          · show (if cid = s.campaignCount + 1 then _ else s.campaigns cid).pledged
              = ∑ a in (∅ : Finset Nat), s.pledgedAmounts cid a
            rw [if_pos hc]
            simp
        · refine ⟨S, hcov, ?_⟩
          show (if cid = s.campaignCount + 1 then _ else s.campaigns cid).pledged
            = ∑ a in S, s.pledgedAmounts cid a
          rw [if_neg hc]
          exact hsum
  | addReward sender now campaignId title description minC qty =>
      rcases stepRes_addReward_cases s sender now campaignId title description
          minC qty with h | ⟨_, _, _, h⟩
      · rw [h]; exact ⟨S, hcov, hsum⟩
      · rw [h]; exact ⟨S, hcov, hsum⟩
  | pledge sender now value campaignId rewardIndex =>
      rcases stepRes_pledge_cases2 s sender now value campaignId rewardIndex
        with h | ⟨_, _, _, _, rewards2, evs1, h, _⟩
      · rw [h]; exact ⟨S, hcov, hsum⟩
      · rw [h]
        by_cases hc : cid = campaignId
        · subst hc
          refine ⟨insert sender S, ?_, ?_⟩
          · intro a ha
            show (if cid = cid ∧ a = sender then _ else s.pledgedAmounts cid a)
              = 0
            have ha1 : ¬ a = sender := fun hs =>
              ha (hs ▸ Finset.mem_insert_self sender S)
            have ha2 : a ∉ S := fun hs => ha (Finset.mem_insert_of_mem hs)
            rw [if_neg (by tauto)]
            exact hcov a ha2
          · show (if cid = cid then
                { s.campaigns cid with
                    pledged := (s.campaigns cid).pledged + value }
              else s.campaigns cid).pledged
              = ∑ a in insert sender S,
                  (if cid = cid ∧ a = sender then
                    s.pledgedAmounts cid sender + value
                  else s.pledgedAmounts cid a)
            rw [if_pos rfl]
            have hsummand : ∀ a ∈ insert sender S,
                (if cid = cid ∧ a = sender then
                  s.pledgedAmounts cid sender + value
                else s.pledgedAmounts cid a) =
                (if a = sender then s.pledgedAmounts cid sender + value
                else s.pledgedAmounts cid a) := by
              intro a _
              by_cases hax : a = sender <;> simp [hax]
            rw [Finset.sum_congr rfl hsummand, sum_bump hcov sender value]
            show (s.campaigns cid).pledged + value = _
            rw [hsum]
        · refine ⟨S, ?_, ?_⟩
          · intro a ha
            show (if cid = campaignId ∧ a = sender then _
              else s.pledgedAmounts cid a) = 0
            rw [if_neg (by tauto)]
            exact hcov a ha
          · show (if cid = campaignId then _ else s.campaigns cid).pledged
              = ∑ a in S, (if cid = campaignId ∧ a = sender then _
                  else s.pledgedAmounts cid a)
            rw [if_neg hc]
            refine hsum.trans (Finset.sum_congr rfl fun a _ => ?_)
            rw [if_neg (by tauto)]
  | withdraw sender now transferOk campaignId =>
      rcases stepRes_withdraw_cases s sender now transferOk campaignId with
        h | ⟨_, _, _, _, _, _, h⟩
      · rw [h]; exact ⟨S, hcov, hsum⟩
      · rw [h]
        refine ⟨S, hcov, ?_⟩
        show ((withdrawnState s campaignId).campaigns cid).pledged
          = ∑ a in S, s.pledgedAmounts cid a
        have hpl : ((withdrawnState s campaignId).campaigns cid).pledged
            = (s.campaigns cid).pledged := by
          by_cases hc : cid = campaignId
          · subst hc; simp [withdrawnState]
          · simp [withdrawnState, hc]
        rw [hpl]
        exact hsum
  | refund sender now transferOk campaignId =>
      rcases stepRes_refund_cases s sender now transferOk campaignId with
        h | ⟨_, _, _, _, _, h⟩
      · rw [h]; exact ⟨S, hcov, hsum⟩
      · rw [h] at hrf
        have hc : ¬ cid = campaignId := by
          intro hc
          subst hc
          simp [rfCount, Event.isRefundedOn] at hrf
        rw [h]
        refine ⟨S, ?_, ?_⟩
        · intro a ha
          show (if cid = campaignId ∧ a = sender then 0
            else s.pledgedAmounts cid a) = 0
          rw [if_neg (by tauto)]
          exact hcov a ha
        · show (s.campaigns cid).pledged
            = ∑ a in S, (if cid = campaignId ∧ a = sender then 0
                else s.pledgedAmounts cid a)
          refine hsum.trans (Finset.sum_congr rfl fun a _ => ?_)
          rw [if_neg (by tauto)]

/-- Conservation holds at the end of any trace that emitted no `Refunded`
event for `cid`. -/
theorem runFrom_consAt {s : State} {cid : Nat} (ops : List Op)
    (hInv : AllocInv s) (hC : ConsAt s cid)
    (hrf : rfCount cid (runFrom s ops).2 = 0) :
    ConsAt (runFrom s ops).1 cid := by
  induction ops generalizing s with
  | nil => exact hC
  | cons op ops ih =>
      have hsplit : rfCount cid (runFrom s (op :: ops)).2 =
          rfCount cid (stepRes s op).2 +
            rfCount cid (runFrom (stepRes s op).1 ops).2 := by
        show rfCount cid
          ((stepRes s op).2 ++ (runFrom (stepRes s op).1 ops).2) = _
        rw [rfCount_append]
      rw [hsplit] at hrf
      exact ih (allocInv_step op hInv)
        (consAt_step op hInv hC (by omega)) (by omega)

/-! ### Call-level success characterizations -/

theorem createCampaign_ok {s s2 : State} {sender now goal startAt endAt : Nat}
    {uri : String} {id : Nat} {evs : List Event}
    (h : createCampaign s sender now goal startAt endAt uri =
      .ok (s2, id, evs)) :
    goal ≠ 0 ∧ startAt < endAt ∧ now ≤ startAt ∧ now < endAt ∧
    s2 = createdState s sender goal startAt endAt uri ∧
    id = s.campaignCount + 1 ∧
    evs = [.CampaignCreated (s.campaignCount + 1) sender goal startAt endAt] := by
  by_cases h1 : goal = 0
  · simp [createCampaign, h1] at h
  by_cases h2 : startAt < endAt
  case neg => simp [createCampaign, h1, h2] at h
  by_cases h3 : now ≤ startAt
  case neg => simp [createCampaign, h1, h2, h3] at h
  by_cases h4 : now < endAt
  case neg => simp [createCampaign, h1, h2, h3, h4] at h
  refine ⟨h1, h2, h3, h4, ?_, ?_, ?_⟩ <;>
    simp only [createCampaign, if_neg h1, if_pos h2, if_pos h3, if_pos h4,
      if_neg (not_not_intro h2), if_neg (not_not_intro h3),
      if_neg (not_not_intro h4), Except.ok.injEq, Prod.mk.injEq] at h
  · exact h.1.symm
  · exact h.2.1.symm
  · exact h.2.2.symm

theorem addReward_ok {s s2 : State} {sender now campaignId : Nat}
    {title description : String} {minContribution qtyAvailable : Nat}
    {evs : List Event}
    (h : addReward s sender now campaignId title description minContribution
      qtyAvailable = .ok (s2, evs)) :
    (s.campaigns campaignId).creator ≠ 0 ∧
    sender = (s.campaigns campaignId).creator ∧
    now < (s.campaigns campaignId).startAt ∧
    s2 = rewardAddedState s campaignId
      { title := title, description := description,
        minimumContribution := minContribution,
        quantityAvailable := qtyAvailable, claimedCount := 0 } ∧
    evs = [] := by
  by_cases h1 : (s.campaigns campaignId).creator = 0
  · simp [addReward, h1] at h
  by_cases h2 : sender = (s.campaigns campaignId).creator
  case neg => simp [addReward, h1, h2] at h
  by_cases h3 : now < (s.campaigns campaignId).startAt
  case neg => simp [addReward, h1, h2, h3] at h
  refine ⟨h1, h2, h3, ?_, ?_⟩ <;>
    simp only [addReward, if_neg h1, if_neg (not_not_intro h2),
      if_neg (not_not_intro h3), Except.ok.injEq, Prod.mk.injEq] at h
  · exact h.1.symm.trans rfl
  · exact h.2.symm

theorem withdraw_ok {s s2 : State} {sender now : Nat} {transferOk : Bool}
    {campaignId amt : Nat} {evs : List Event}
    (h : withdraw s sender now transferOk campaignId = .ok (s2, amt, evs)) :
    (s.campaigns campaignId).creator ≠ 0 ∧
    sender = (s.campaigns campaignId).creator ∧
    (s.campaigns campaignId).endAt < now ∧
    (s.campaigns campaignId).goal ≤ (s.campaigns campaignId).pledged ∧
    (s.campaigns campaignId).claimed = false ∧ transferOk = true ∧
    s2 = withdrawnState s campaignId ∧
    amt = (s.campaigns campaignId).pledged ∧
    evs = [.Withdrawn campaignId (s.campaigns campaignId).pledged] := by
  by_cases h1 : (s.campaigns campaignId).creator = 0
  · simp [withdraw, h1] at h
  by_cases h2 : sender = (s.campaigns campaignId).creator
  case neg => simp [withdraw, h1, h2] at h
  by_cases h3 : (s.campaigns campaignId).endAt < now
  case neg => simp [withdraw, h1, h2, h3] at h
  by_cases h4 : (s.campaigns campaignId).goal ≤ (s.campaigns campaignId).pledged
  case neg => simp [withdraw, h1, h2, h3, h4] at h
  by_cases h5 : (s.campaigns campaignId).claimed
  · simp [withdraw, h1, h2, h3, h4, h5] at h
  by_cases h6 : transferOk
  case neg => simp [withdraw, h1, h2, h3, h4, h5, h6] at h
  refine ⟨h1, h2, h3, h4, by simpa using h5, by simpa using h6, ?_, ?_, ?_⟩ <;>
    simp only [withdraw, if_neg h1, if_neg (not_not_intro h2),
      if_neg (not_not_intro h3), if_neg (not_not_intro h4),
      if_neg (by simpa using h5 : ¬ (s.campaigns campaignId).claimed = true),
      if_pos (by simpa using h6 : transferOk = true), Except.ok.injEq,
      Prod.mk.injEq] at h
  · exact h.1.symm.trans rfl
  · exact h.2.1.symm
  · exact h.2.2.symm

theorem refund_ok {s s2 : State} {sender now : Nat} {transferOk : Bool}
    {campaignId amt : Nat} {evs : List Event}
    (h : refund s sender now transferOk campaignId = .ok (s2, amt, evs)) :
    (s.campaigns campaignId).creator ≠ 0 ∧
    (s.campaigns campaignId).endAt < now ∧
    (s.campaigns campaignId).pledged < (s.campaigns campaignId).goal ∧
    s.pledgedAmounts campaignId sender ≠ 0 ∧ transferOk = true ∧
    s2 = refundedState s sender campaignId ∧
    amt = s.pledgedAmounts campaignId sender ∧
    evs = [.Refunded campaignId sender
      (s.pledgedAmounts campaignId sender)] := by
  by_cases h1 : (s.campaigns campaignId).creator = 0
  · simp [refund, h1] at h
  by_cases h2 : (s.campaigns campaignId).endAt < now
  case neg => simp [refund, h1, h2] at h
  by_cases h3 : (s.campaigns campaignId).goal ≤ (s.campaigns campaignId).pledged
  · simp [refund, h1, h2, h3] at h
  by_cases h4 : s.pledgedAmounts campaignId sender = 0
  · simp [refund, h1, h2, h3, h4] at h
  by_cases h5 : transferOk
  case neg => simp [refund, h1, h2, h3, h4, h5] at h
  refine ⟨h1, h2, Nat.lt_of_not_le h3, h4, by simpa using h5, ?_, ?_, ?_⟩ <;>
    simp only [refund, if_neg h1, if_neg (not_not_intro h2), if_neg h3,
      if_neg h4, if_pos (by simpa using h5 : transferOk = true),
      Except.ok.injEq, Prod.mk.injEq] at h
  · exact h.1.symm.trans rfl
  · exact h.2.1.symm
  · exact h.2.2.symm

theorem pledge_ok {s s2 : State} {sender now value campaignId rewardIndex : Nat}
    {evs : List Event}
    (h : pledge s sender now value campaignId rewardIndex = .ok (s2, evs)) :
    (s.campaigns campaignId).creator ≠ 0 ∧
    (s.campaigns campaignId).startAt ≤ now ∧
    now ≤ (s.campaigns campaignId).endAt ∧ value ≠ 0 ∧
    ((s2 = pledgedState s sender value campaignId
        (s.campaignRewards campaignId) ∧
      evs = [.Pledged campaignId sender value]) ∨
     (∃ h5 : rewardIndex < (s.campaignRewards campaignId).length,
       (s.campaignRewards campaignId)[rewardIndex].minimumContribution
           ≤ value ∧
       0 < (s.campaignRewards campaignId)[rewardIndex].quantityAvailable ∧
       (s.campaignRewards campaignId)[rewardIndex].claimedCount <
         (s.campaignRewards campaignId)[rewardIndex].quantityAvailable ∧
       s2 = pledgedState s sender value campaignId
         ((s.campaignRewards campaignId).set rewardIndex
           { (s.campaignRewards campaignId)[rewardIndex] with
               claimedCount :=
                 (s.campaignRewards campaignId)[rewardIndex].claimedCount
                   + 1 }) ∧
       evs = [.RewardClaimed campaignId sender rewardIndex,
              .Pledged campaignId sender value])) := by
  by_cases h1 : (s.campaigns campaignId).creator = 0
  · simp [pledge, h1] at h
  by_cases h2 : (s.campaigns campaignId).startAt ≤ now ∧
      now ≤ (s.campaigns campaignId).endAt
  case neg => simp [pledge, h1, h2] at h
  by_cases h3 : value = 0
  · simp [pledge, h1, h2, h3] at h
  by_cases h4 : rewardIndex < (s.campaignRewards campaignId).length
  case neg =>
    have hcall : pledge s sender now value campaignId rewardIndex =
        .ok (pledgedState s sender value campaignId
              (s.campaignRewards campaignId),
             [.Pledged campaignId sender value]) := by
      simp [pledge, h1, h2, h3, h4, pledgedState]
    rw [hcall] at h
    simp only [Except.ok.injEq, Prod.mk.injEq] at h
    exact ⟨h1, h2.1, h2.2, h3, Or.inl ⟨h.1.symm, h.2.symm⟩⟩
  by_cases h5 : value <
      (s.campaignRewards campaignId)[rewardIndex].minimumContribution
  · simp [pledge, h1, h2, h3, h4, h5] at h
  by_cases h6 : 0 < (s.campaignRewards campaignId)[rewardIndex].quantityAvailable
  case neg =>
    have hcall : pledge s sender now value campaignId rewardIndex =
        .ok (pledgedState s sender value campaignId
              (s.campaignRewards campaignId),
             [.Pledged campaignId sender value]) := by
      simp [pledge, h1, h2, h3, h4, h5, h6, pledgedState]
    rw [hcall] at h
    simp only [Except.ok.injEq, Prod.mk.injEq] at h
    exact ⟨h1, h2.1, h2.2, h3, Or.inl ⟨h.1.symm, h.2.symm⟩⟩
  by_cases h7 : (s.campaignRewards campaignId)[rewardIndex].claimedCount <
      (s.campaignRewards campaignId)[rewardIndex].quantityAvailable
  case neg => simp [pledge, h1, h2, h3, h4, h5, h6, h7] at h
  have hcall : pledge s sender now value campaignId rewardIndex =
      .ok (pledgedState s sender value campaignId
            ((s.campaignRewards campaignId).set rewardIndex
              { (s.campaignRewards campaignId)[rewardIndex] with
                  claimedCount :=
                    (s.campaignRewards campaignId)[rewardIndex].claimedCount
                      + 1 }),
           [.RewardClaimed campaignId sender rewardIndex,
            .Pledged campaignId sender value]) := by
    simp [pledge, h1, h2, h3, h4, h5, h6, h7, pledgedState]
  rw [hcall] at h
  simp only [Except.ok.injEq, Prod.mk.injEq] at h
  exact ⟨h1, h2.1, h2.2, h3,
    Or.inr ⟨h4, Nat.le_of_not_lt h5, h6, h7, h.1.symm, h.2.symm⟩⟩

/-! ### Count extraction -/

theorem rfCount_eq_zero_of_not_mem {cid : Nat} {evs : List Event}
    (h : ∀ a amt, Event.Refunded cid a amt ∉ evs) : rfCount cid evs = 0 := by
  rw [rfCount, List.length_eq_zero, List.filter_eq_nil_iff]
  intro e hmem
  cases e with
  | Refunded i a amt =>
      simp only [Event.isRefundedOn]
      intro hdec
      have : i = cid := of_decide_eq_true hdec
      subst this
      exact h a amt hmem
  | CampaignCreated i c g st en => simp [Event.isRefundedOn]
  | Pledged i c a => simp [Event.isRefundedOn]
  | Withdrawn i a => simp [Event.isRefundedOn]
  | RewardClaimed i c j => simp [Event.isRefundedOn]

/-! ### Claim theorems -/

/-- C1.  Conservation: in any reachable state of a campaign for which no
settlement action (no `Withdrawn` and no `Refunded` event) has occurred,
`pledged` equals the sum of all per-contributor pledge records of that
campaign (over any finite set containing their support); and a successful
`withdraw` hands the transfer primitive exactly the campaign's `pledged`
amount as captured at that moment. -/
theorem claim_C1_conservation :
    (∀ (tr : List Op) (cid : Nat) (S : Finset Nat),
      (∀ a amt, Event.Refunded cid a amt ∉ (runTrace tr).2) →
      (∀ amt, Event.Withdrawn cid amt ∉ (runTrace tr).2) →
      (∀ a ∉ S, (runTrace tr).1.pledgedAmounts cid a = 0) →
      ((runTrace tr).1.campaigns cid).pledged =
        ∑ a in S, (runTrace tr).1.pledgedAmounts cid a) ∧
    (∀ (s s2 : State) (sender now : Nat) (transferOk : Bool)
        (campaignId amt : Nat) (evs : List Event),
      withdraw s sender now transferOk campaignId = .ok (s2, amt, evs) →
      amt = (s.campaigns campaignId).pledged) := by
  constructor
  · intro tr cid S hnoR _ hcov
    have hrf : rfCount cid (runTrace tr).2 = 0 :=
      rfCount_eq_zero_of_not_mem hnoR
    obtain ⟨T, hTcov, hTsum⟩ :=
      runFrom_consAt tr allocInv_init (consAt_init cid) hrf
    have hTsum2 : ((runTrace tr).1.campaigns cid).pledged =
        ∑ a in T, (runTrace tr).1.pledgedAmounts cid a := hTsum
    have hTcov2 : ∀ a ∉ T, (runTrace tr).1.pledgedAmounts cid a = 0 := hTcov
    rw [hTsum2]
    exact sum_cover_eq hTcov2 hcov
  · intro s s2 sender now transferOk campaignId amt evs h
    exact (withdraw_ok h).2.2.2.2.2.2.2.1

/-- Concrete two-transaction trace used by witnesses: a campaign is created
with goal 100 and window [10, 20], then account 7 pledges 60 at time 15
(reward index 5 is out of range, so no tier is involved). -/
def trWa : List Op := [.create 1 0 100 10 20 "m", .pledge 7 15 60 1 5]

theorem claim_C1_conservation_witness :
    ((runTrace trWa).1.campaigns 1).pledged =
      ∑ a in ({7} : Finset Nat), (runTrace trWa).1.pledgedAmounts 1 a := by
  have hevs : (runTrace trWa).2 =
      [.CampaignCreated 1 1 100 10 20, .Pledged 1 7 60] := rfl
  refine claim_C1_conservation.1 trWa 1 {7} ?_ ?_ ?_
  · intro a amt hmem
    rw [hevs] at hmem
    simp at hmem
  · intro amt hmem
    rw [hevs] at hmem
    simp at hmem
  · intro a ha
    have hne : ¬ a = 7 := by simpa using ha
    show (if 1 = 1 ∧ a = 7 then initState.pledgedAmounts 1 7 + 60
      else initState.pledgedAmounts 1 a) = 0
    rw [if_neg (by tauto)]
    rfl

/-- C2.  Exactly-once settlement: the `claimed` flag starts out false for
every campaign; any trace emits at most one `Withdrawn` event per campaign;
and once a `Withdrawn` event has occurred for a campaign, every later
`withdraw` call on it by the creator after the deadline fails with
`AlreadySettled`. -/
theorem claim_C2_exactly_once :
    (∀ cid : Nat, (initState.campaigns cid).claimed = false) ∧
    (∀ (tr : List Op) (cid : Nat), wCount cid (runTrace tr).2 ≤ 1) ∧
    (∀ (tr : List Op) (cid amt : Nat),
      Event.Withdrawn cid amt ∈ (runTrace tr).2 →
      ∀ (sender now : Nat) (transferOk : Bool),
        sender = ((runTrace tr).1.campaigns cid).creator →
        ((runTrace tr).1.campaigns cid).endAt < now →
        withdraw (runTrace tr).1 sender now transferOk cid =
          .error .AlreadySettled) := by
  refine ⟨fun _ => rfl, fun tr cid => (runFrom_wCount tr allocInv_init).1,
    ?_⟩
  intro tr cid amt hmem sender now transferOk hsender hnow
  obtain ⟨hcr, hcl, hge⟩ :=
    (runFrom_wCount tr allocInv_init).2 (wCount_pos_of_mem hmem)
  have hcr2 : ((runTrace tr).1.campaigns cid).creator ≠ 0 := hcr
  have hcl2 : ((runTrace tr).1.campaigns cid).claimed = true := hcl
  have hnl : ¬ ((runTrace tr).1.campaigns cid).pledged <
      ((runTrace tr).1.campaigns cid).goal :=
    Nat.not_lt.mpr hge
  simp [withdraw, hcr2, hsender, hnow, hnl, hcl2]

/-- Concrete trace for the C2 witness: create (goal 50), pledge 60, then a
successful `withdraw` by the creator at time 21. -/
def trWb : List Op :=
  [.create 1 0 50 10 20 "m", .pledge 7 15 60 1 5, .withdraw 1 21 true 1]

theorem claim_C2_exactly_once_witness :
    withdraw (runTrace trWb).1 1 22 true 1 = .error .AlreadySettled := by
  have hmem : Event.Withdrawn 1 60 ∈ (runTrace trWb).2 := by
    have hevs : (runTrace trWb).2 =
        [.CampaignCreated 1 1 50 10 20, .Pledged 1 7 60, .Withdrawn 1 60] :=
      rfl
    rw [hevs]
    simp
  exact claim_C2_exactly_once.2.2 trWb 1 60 hmem 1 22 true rfl (by decide)

/-- C3.  Refund exclusivity: along any trace with non-decreasing
timestamps, no campaign gets both a successful `withdraw` and a successful
`refund`; moreover a successful `withdraw` requires `goal ≤ pledged` after
the deadline, and a successful `refund` requires `pledged < goal` after the
deadline — the branch is decided by the goal test once the window is over. -/
theorem claim_C3_refund_exclusivity :
    (∀ (tr : List Op) (cid : Nat),
      List.Pairwise (· ≤ ·) (tr.map Op.now) →
      ¬((∃ amt, Event.Withdrawn cid amt ∈ (runTrace tr).2) ∧
        (∃ a amt, Event.Refunded cid a amt ∈ (runTrace tr).2))) ∧
    (∀ (s s2 : State) (sender now : Nat) (transferOk : Bool)
        (campaignId amt : Nat) (evs : List Event),
      withdraw s sender now transferOk campaignId = .ok (s2, amt, evs) →
      (s.campaigns campaignId).endAt < now ∧
        (s.campaigns campaignId).goal ≤ (s.campaigns campaignId).pledged) ∧
    (∀ (s s2 : State) (sender now : Nat) (transferOk : Bool)
        (campaignId amt : Nat) (evs : List Event),
      refund s sender now transferOk campaignId = .ok (s2, amt, evs) →
      (s.campaigns campaignId).endAt < now ∧
        (s.campaigns campaignId).pledged < (s.campaigns campaignId).goal) := by
  refine ⟨?_, ?_, ?_⟩
  · rintro tr cid hmono ⟨⟨amt, hw⟩, ⟨a, amt2, hr⟩⟩
    exact runFrom_excl tr allocInv_init hmono
      ⟨wCount_pos_of_mem hw, rfCount_pos_of_mem hr⟩
  · intro s s2 sender now transferOk campaignId amt evs h
    exact ⟨(withdraw_ok h).2.2.1, (withdraw_ok h).2.2.2.1⟩
  · intro s s2 sender now transferOk campaignId amt evs h
    exact ⟨(refund_ok h).2.1, (refund_ok h).2.2.1⟩

theorem claim_C3_refund_exclusivity_witness :
    ¬((∃ amt, Event.Withdrawn 1 amt ∈ (runTrace trWb).2) ∧
      (∃ a amt, Event.Refunded 1 a amt ∈ (runTrace trWb).2)) :=
  claim_C3_refund_exclusivity.1 trWb 1 (by decide)

/-- Allocated identifiers only ever grow. -/
theorem campaignCount_mono {s : State} (op : Op) :
    s.campaignCount ≤ (stepRes s op).1.campaignCount := by
  cases op with
  | create sender now goal startAt endAt uri =>
      rcases stepRes_create_cases s sender now goal startAt endAt uri with
        h | ⟨_, _, _, _, h⟩ <;> rw [h]
      exact Nat.le_succ _
  | addReward sender now campaignId title description minC qty =>
      rcases stepRes_addReward_cases s sender now campaignId title description
          minC qty with h | ⟨_, _, _, h⟩ <;> rw [h]
      exact Nat.le_refl _
  | pledge sender now value campaignId rewardIndex =>
      rcases stepRes_pledge_cases2 s sender now value campaignId rewardIndex
        with h | ⟨_, _, _, _, r2, e1, h, _⟩ <;> rw [h]
      exact Nat.le_refl _
  | withdraw sender now transferOk campaignId =>
      rcases stepRes_withdraw_cases s sender now transferOk campaignId with
        h | ⟨_, _, _, _, _, _, h⟩ <;> rw [h]
      exact Nat.le_refl _
  | refund sender now transferOk campaignId =>
      rcases stepRes_refund_cases s sender now transferOk campaignId with
        h | ⟨_, _, _, _, _, h⟩ <;> rw [h]
      exact Nat.le_refl _

/-- C5.  Idempotent failure: every operation that returns an error leaves
the whole storage (all three stores) exactly equal to its pre-call state and
emits no event — the transactional (revert) semantics of the contract's
`require`, including a failed external transfer inside `withdraw`/`refund`
after their earlier mutations. -/
theorem claim_C5_idempotent_failure :
    (∀ (s : State) (sender now goal startAt endAt : Nat) (uri : String)
        (e : Err),
      createCampaign s sender now goal startAt endAt uri = .error e →
      stepRes s (.create sender now goal startAt endAt uri) = (s, [])) ∧
    (∀ (s : State) (sender now campaignId : Nat) (title description : String)
        (minContribution qtyAvailable : Nat) (e : Err),
      addReward s sender now campaignId title description minContribution
        qtyAvailable = .error e →
      stepRes s (.addReward sender now campaignId title description
        minContribution qtyAvailable) = (s, [])) ∧
    (∀ (s : State) (sender now value campaignId rewardIndex : Nat) (e : Err),
      pledge s sender now value campaignId rewardIndex = .error e →
      stepRes s (.pledge sender now value campaignId rewardIndex) = (s, [])) ∧
    (∀ (s : State) (sender now : Nat) (transferOk : Bool) (campaignId : Nat)
        (e : Err),
      withdraw s sender now transferOk campaignId = .error e →
      stepRes s (.withdraw sender now transferOk campaignId) = (s, [])) ∧
    (∀ (s : State) (sender now : Nat) (transferOk : Bool) (campaignId : Nat)
        (e : Err),
      refund s sender now transferOk campaignId = .error e →
      stepRes s (.refund sender now transferOk campaignId) = (s, [])) := by
  refine ⟨?_, ?_, ?_, ?_, ?_⟩ <;> intros <;> simp_all [stepRes]

/-- A state used by the failure witnesses: campaign 1 exists with goal 50,
window [10, 20], 60 already pledged by account 7, not yet settled. -/
def sW : State :=
  { campaignCount := 1
    campaigns := fun i =>
      if i = 1 then
        { creator := 1, goal := 50, pledged := 60, startAt := 10, endAt := 20,
          claimed := false, metadataURI := "m" }
      else defaultCampaign
    campaignRewards := fun _ => []
    pledgedAmounts := fun i a => if i = 1 ∧ a = 7 then 60 else 0
    totalContributed := fun a => if a = 7 then 60 else 0 }

/-- The interesting instance of C5: a `withdraw` whose external transfer
fails (`transferOk = false`) reverts, leaving the state untouched even
though the `claimed` flag had been set before the transfer attempt. -/
theorem claim_C5_idempotent_failure_witness :
    stepRes sW (.withdraw 1 21 false 1) = (sW, []) :=
  claim_C5_idempotent_failure.2.2.2.1 sW 1 21 false 1 .TransferFailed rfl

/-- C6.  `createCampaign` contract: `InvalidGoal` when the goal is zero,
`InvalidWindow` when the window is not increasing, `WindowNotFuture` when
the window does not lie in the future; otherwise success, storing the new
record with `pledged = 0` and `claimed = false` at the next sequential
identifier (the first campaign gets id 1) and returning that identifier;
`campaignCount` never decreases, so identifiers are never reused. -/
theorem claim_C6_create_contract :
    (∀ (s : State) (sender now startAt endAt : Nat) (uri : String),
      createCampaign s sender now 0 startAt endAt uri =
        .error .InvalidGoal) ∧
    (∀ (s : State) (sender now goal startAt endAt : Nat) (uri : String),
      goal ≠ 0 → endAt ≤ startAt →
      createCampaign s sender now goal startAt endAt uri =
        .error .InvalidWindow) ∧
    (∀ (s : State) (sender now goal startAt endAt : Nat) (uri : String),
      goal ≠ 0 → startAt < endAt → (startAt < now ∨ endAt ≤ now) →
      createCampaign s sender now goal startAt endAt uri =
        .error .WindowNotFuture) ∧
    (∀ (s : State) (sender now goal startAt endAt : Nat) (uri : String),
      goal ≠ 0 → startAt < endAt → now ≤ startAt → now < endAt →
      createCampaign s sender now goal startAt endAt uri =
        .ok (createdState s sender goal startAt endAt uri,
          s.campaignCount + 1,
          [.CampaignCreated (s.campaignCount + 1) sender goal startAt
            endAt]) ∧
      (createdState s sender goal startAt endAt uri).campaigns
          (s.campaignCount + 1) =
        { creator := sender, goal := goal, pledged := 0, startAt := startAt,
          endAt := endAt, claimed := false, metadataURI := uri } ∧
      (createdState s sender goal startAt endAt uri).campaignCount =
        s.campaignCount + 1) ∧
    initState.campaignCount = 0 ∧
    (∀ (s : State) (op : Op),
      s.campaignCount ≤ (stepRes s op).1.campaignCount) := by
  refine ⟨?_, ?_, ?_, ?_, rfl, fun s op => campaignCount_mono op⟩
  · intro s sender now startAt endAt uri
    simp [createCampaign]
  · intro s sender now goal startAt endAt uri hg hwin
    simp [createCampaign, hg, Nat.not_lt.mpr hwin]
  · intro s sender now goal startAt endAt uri hg hwin hfut
    rcases hfut with hlt | hle
    · simp [createCampaign, hg, hwin, Nat.not_le.mpr hlt]
    · have hlt : startAt < now := by omega
      simp [createCampaign, hg, hwin, Nat.not_le.mpr hlt]
  · intro s sender now goal startAt endAt uri hg hwin h3 h4
    refine ⟨by simp [createCampaign, hg, hwin, h3, h4, createdState], ?_, rfl⟩
    simp [createdState]

theorem claim_C6_create_contract_witness :
    createCampaign initState 1 0 100 10 20 "m" =
      .ok (createdState initState 1 100 10 20 "m", 1,
        [.CampaignCreated 1 1 100 10 20]) :=
  (claim_C6_create_contract.2.2.2.1 initState 1 0 100 10 20 "m"
    (by decide) (by decide) (by decide) (by decide)).1

/-- C7.  `refund` contract: the four failure cases in `require` order; on
success (with the transfer succeeding) the caller's pledge record is zeroed,
the caller's global total is decremented by exactly the refunded amount, the
refunded amount is the recorded balance, and an immediately repeated
`refund` by the same caller fails with `NothingToRefund`. -/
theorem claim_C7_refund_contract :
    (∀ (s : State) (sender now : Nat) (transferOk : Bool) (cid : Nat),
      (s.campaigns cid).creator = 0 →
      refund s sender now transferOk cid = .error .CampaignNotFound) ∧
    (∀ (s : State) (sender now : Nat) (transferOk : Bool) (cid : Nat),
      (s.campaigns cid).creator ≠ 0 → now ≤ (s.campaigns cid).endAt →
      refund s sender now transferOk cid = .error .CampaignNotEnded) ∧
    (∀ (s : State) (sender now : Nat) (transferOk : Bool) (cid : Nat),
      (s.campaigns cid).creator ≠ 0 → (s.campaigns cid).endAt < now →
      (s.campaigns cid).goal ≤ (s.campaigns cid).pledged →
      refund s sender now transferOk cid = .error .GoalReached) ∧
    (∀ (s : State) (sender now : Nat) (transferOk : Bool) (cid : Nat),
      (s.campaigns cid).creator ≠ 0 → (s.campaigns cid).endAt < now →
      (s.campaigns cid).pledged < (s.campaigns cid).goal →
      s.pledgedAmounts cid sender = 0 →
      refund s sender now transferOk cid = .error .NothingToRefund) ∧
    (∀ (s : State) (sender now : Nat) (cid : Nat) (transferOk2 : Bool),
      (s.campaigns cid).creator ≠ 0 → (s.campaigns cid).endAt < now →
      (s.campaigns cid).pledged < (s.campaigns cid).goal →
      s.pledgedAmounts cid sender ≠ 0 →
      refund s sender now true cid =
        .ok (refundedState s sender cid, s.pledgedAmounts cid sender,
          [.Refunded cid sender (s.pledgedAmounts cid sender)]) ∧
      (refundedState s sender cid).pledgedAmounts cid sender = 0 ∧
      (s.pledgedAmounts cid sender ≤ s.totalContributed sender →
        (refundedState s sender cid).totalContributed sender +
          s.pledgedAmounts cid sender = s.totalContributed sender) ∧
      refund (refundedState s sender cid) sender now transferOk2 cid =
        .error .NothingToRefund) := by
  refine ⟨?_, ?_, ?_, ?_, ?_⟩
  · intro s sender now transferOk cid h1
    simp [refund, h1]
  · intro s sender now transferOk cid h1 h2
    simp [refund, h1, Nat.not_lt.mpr h2]
  · intro s sender now transferOk cid h1 h2 h3
    simp [refund, h1, h2, h3]
  · intro s sender now transferOk cid h1 h2 h3 h4
    simp [refund, h1, h2, Nat.not_le.mpr h3, h4]
  · intro s sender now cid transferOk2 h1 h2 h3 h4
    refine ⟨by simp [refund, h1, h2, Nat.not_le.mpr h3, h4, refundedState],
      by simp [refundedState], ?_, ?_⟩
    · intro hle
      have htc : (refundedState s sender cid).totalContributed sender =
          s.totalContributed sender - s.pledgedAmounts cid sender := by
        simp [refundedState]
      rw [htc]
      omega
    · have hcr : (refundedState s sender cid).campaigns cid =
        s.campaigns cid := rfl
      have hbal : (refundedState s sender cid).pledgedAmounts cid sender
          = 0 := by simp [refundedState]
      simp [refund, hcr, h1, h2, Nat.not_le.mpr h3, hbal]

/-- Like `sW` but with goal 100, so the campaign misses its goal. -/
def sW2 : State :=
  { campaignCount := 1
    campaigns := fun i =>
      if i = 1 then
        { creator := 1, goal := 100, pledged := 60, startAt := 10,
          endAt := 20, claimed := false, metadataURI := "m" }
      else defaultCampaign
    campaignRewards := fun _ => []
    pledgedAmounts := fun i a => if i = 1 ∧ a = 7 then 60 else 0
    totalContributed := fun a => if a = 7 then 60 else 0 }

theorem claim_C7_refund_contract_witness :
    refund sW2 7 21 true 1 =
      .ok (refundedState sW2 7 1, 60, [.Refunded 1 7 60]) ∧
    refund (refundedState sW2 7 1) 7 21 true 1 =
      .error .NothingToRefund := by
  have h := claim_C7_refund_contract.2.2.2.2 sW2 7 21 1 true
    (by decide) (by decide) (by decide) (by decide)
  exact ⟨h.1, h.2.2.2⟩

/-- C9.  Withdraw frame: a successful `withdraw` changes only the target
campaign's `claimed` flag — the campaign counter, the reward store, the
pledge ledger and the global totals are untouched, every other campaign
record is untouched, and the target campaign keeps its `pledged` (not reset
to 0), `creator`, `goal`, window and metadata. -/
theorem claim_C9_withdraw_frame (s s2 : State) (sender now : Nat)
    (transferOk : Bool) (cid amt : Nat) (evs : List Event)
    (h : withdraw s sender now transferOk cid = .ok (s2, amt, evs)) :
    s2.campaignCount = s.campaignCount ∧
    s2.campaignRewards = s.campaignRewards ∧
    s2.pledgedAmounts = s.pledgedAmounts ∧
    s2.totalContributed = s.totalContributed ∧
    (∀ i, i ≠ cid → s2.campaigns i = s.campaigns i) ∧
    (s2.campaigns cid).claimed = true ∧
    (s2.campaigns cid).creator = (s.campaigns cid).creator ∧
    (s2.campaigns cid).goal = (s.campaigns cid).goal ∧
    (s2.campaigns cid).pledged = (s.campaigns cid).pledged ∧
    (s2.campaigns cid).startAt = (s.campaigns cid).startAt ∧
    (s2.campaigns cid).endAt = (s.campaigns cid).endAt ∧
    (s2.campaigns cid).metadataURI = (s.campaigns cid).metadataURI := by
  obtain ⟨-, -, -, -, -, -, hs2, -, -⟩ := withdraw_ok h
  subst hs2
  refine ⟨rfl, rfl, rfl, rfl, fun i hi => ?_, ?_⟩
  · simp [withdrawnState, hi]
  · constructor
    · simp [withdrawnState]
    refine ⟨?_, ?_, ?_, ?_, ?_, ?_⟩ <;> simp [withdrawnState]

theorem claim_C9_withdraw_frame_witness :
    ((withdrawnState sW 1).campaigns 1).pledged = (sW.campaigns 1).pledged ∧
    (withdrawnState sW 1).pledgedAmounts = sW.pledgedAmounts := by
  have h := claim_C9_withdraw_frame sW (withdrawnState sW 1) 1 21 true 1 60
    [.Withdrawn 1 60] rfl
  exact ⟨h.2.2.2.2.2.2.2.2.1, h.2.2.1⟩

/-- C10.  No caller restriction on `pledge` or `refund`: whether `pledge`
fails, and with which error, does not depend on the caller at all; the
creator can pledge to their own campaign; after a missed goal any account
with a nonzero pledge record — the creator included, there is no
`NotCreator` check in `refund` — obtains a refund; while `addReward` and
`withdraw` do reject any caller other than the creator with `NotCreator`. -/
theorem claim_C10_no_caller_restriction :
    (∀ (s : State) (sender sender2 now value cid idx : Nat) (e : Err),
      pledge s sender now value cid idx = .error e ↔
      pledge s sender2 now value cid idx = .error e) ∧
    (∀ (s : State) (now value cid idx : Nat),
      (s.campaigns cid).creator ≠ 0 →
      (s.campaigns cid).startAt ≤ now → now ≤ (s.campaigns cid).endAt →
      value ≠ 0 → ¬ idx < (s.campaignRewards cid).length →
      (pledge s ((s.campaigns cid).creator) now value cid idx).isOk
        = true) ∧
    (∀ (s : State) (caller now cid : Nat),
      (s.campaigns cid).creator ≠ 0 → (s.campaigns cid).endAt < now →
      (s.campaigns cid).pledged < (s.campaigns cid).goal →
      s.pledgedAmounts cid caller ≠ 0 →
      (refund s caller now true cid).isOk = true) ∧
    (∀ (s : State) (sender now cid : Nat) (title description : String)
        (minContribution qtyAvailable : Nat),
      (s.campaigns cid).creator ≠ 0 →
      sender ≠ (s.campaigns cid).creator →
      addReward s sender now cid title description minContribution
        qtyAvailable = .error .NotCreator) ∧
    (∀ (s : State) (sender now : Nat) (transferOk : Bool) (cid : Nat),
      (s.campaigns cid).creator ≠ 0 →
      sender ≠ (s.campaigns cid).creator →
      withdraw s sender now transferOk cid = .error .NotCreator) := by
  refine ⟨?_, ?_, ?_, ?_, ?_⟩
  · intro s sa sb now value cid idx e
    by_cases h1 : (s.campaigns cid).creator = 0
    · simp [pledge, h1]
    by_cases h2 : (s.campaigns cid).startAt ≤ now ∧
        now ≤ (s.campaigns cid).endAt
    case neg => simp [pledge, h1, h2]
    by_cases h3 : value = 0
    · simp [pledge, h1, h2, h3]
    by_cases h4 : idx < (s.campaignRewards cid).length
    case neg => simp [pledge, h1, h2, h3, h4]
    by_cases h5 : value < (s.campaignRewards cid)[idx].minimumContribution
    · simp [pledge, h1, h2, h3, h4, h5]
    by_cases h6 : 0 < (s.campaignRewards cid)[idx].quantityAvailable
    case neg => simp [pledge, h1, h2, h3, h4, h5, h6]
    by_cases h7 : (s.campaignRewards cid)[idx].claimedCount <
        (s.campaignRewards cid)[idx].quantityAvailable
    · simp [pledge, h1, h2, h3, h4, h5, h6, h7]
    · simp [pledge, h1, h2, h3, h4, h5, h6, h7]
  · intro s now value cid idx h1 h2 h3 h4 h5
    simp [pledge, h1, h2, h3, h4, h5, Except.isOk, Except.toBool]
  · intro s caller now cid h1 h2 h3 h4
    simp [refund, h1, h2, Nat.not_le.mpr h3, h4, Except.isOk, Except.toBool]
  · intro s sender now cid title description minContribution qtyAvailable
      h1 h2
    simp [addReward, h1, h2]
  · intro s sender now transferOk cid h1 h2
    simp [withdraw, h1, h2]

/-- Like `sW2` (goal missed) but the 60 were pledged by the creator
(account 1) themselves. -/
def sW3 : State :=
  { campaignCount := 1
    campaigns := fun i =>
      if i = 1 then
        { creator := 1, goal := 100, pledged := 60, startAt := 10,
          endAt := 20, claimed := false, metadataURI := "m" }
      else defaultCampaign
    campaignRewards := fun _ => []
    pledgedAmounts := fun i a => if i = 1 ∧ a = 1 then 60 else 0
    totalContributed := fun a => if a = 1 then 60 else 0 }

/-- The creator themselves successfully obtains a refund of their own
pledge after the goal is missed. -/
theorem claim_C10_no_caller_restriction_witness :
    (refund sW3 1 21 true 1).isOk = true :=
  claim_C10_no_caller_restriction.2.2.1 sW3 1 21 1 (by decide) (by decide)
    (by decide) (by decide)

/-- C8 counterexample: a successful `addReward` call (the campaign exists,
the caller is the creator, the window has not opened) emits no event at
all, refuting "every successful write emits exactly one event". -/
theorem claim_C8_one_event_cex :
    (addReward sW 1 5 1 "t" "d" 0 0).isOk = true ∧
    Except.map Prod.snd (addReward sW 1 5 1 "t" "d" 0 0) =
      Except.ok ([] : List Event) :=
  ⟨rfl, rfl⟩

/-- C8 amended: each successful `createCampaign`, `withdraw` and `refund`
emits exactly one event; a successful `addReward` emits none; a successful
`pledge` emits a single `Pledged` event, preceded by a `RewardClaimed`
event exactly when it claims a scarce tier. -/
theorem claim_C8_one_event_amended :
    (∀ (s s2 : State) (sender now goal startAt endAt : Nat) (uri : String)
        (id : Nat) (evs : List Event),
      createCampaign s sender now goal startAt endAt uri =
        .ok (s2, id, evs) → evs.length = 1) ∧
    (∀ (s s2 : State) (sender now cid : Nat) (title description : String)
        (mc qa : Nat) (evs : List Event),
      addReward s sender now cid title description mc qa = .ok (s2, evs) →
      evs = []) ∧
    (∀ (s s2 : State) (sender now value cid idx : Nat) (evs : List Event),
      pledge s sender now value cid idx = .ok (s2, evs) →
      evs = [.Pledged cid sender value] ∨
      evs = [.RewardClaimed cid sender idx, .Pledged cid sender value]) ∧
    (∀ (s s2 : State) (sender now : Nat) (transferOk : Bool)
        (cid amt : Nat) (evs : List Event),
      withdraw s sender now transferOk cid = .ok (s2, amt, evs) →
      evs.length = 1) ∧
    (∀ (s s2 : State) (sender now : Nat) (transferOk : Bool)
        (cid amt : Nat) (evs : List Event),
      refund s sender now transferOk cid = .ok (s2, amt, evs) →
      evs.length = 1) := by
  refine ⟨?_, ?_, ?_, ?_, ?_⟩
  · intro s s2 sender now goal startAt endAt uri id evs h
    rw [(createCampaign_ok h).2.2.2.2.2.2]
    rfl
  · intro s s2 sender now cid title description mc qa evs h
    exact (addReward_ok h).2.2.2.2
  · intro s s2 sender now value cid idx evs h
    rcases (pledge_ok h).2.2.2.2 with ⟨-, he⟩ | ⟨-, -, -, -, -, he⟩
    · exact Or.inl he
    · exact Or.inr he
  · intro s s2 sender now transferOk cid amt evs h
    rw [(withdraw_ok h).2.2.2.2.2.2.2.2]
    rfl
  · intro s s2 sender now transferOk cid amt evs h
    rw [(refund_ok h).2.2.2.2.2.2.2]
    rfl

theorem claim_C8_one_event_amended_witness :
    ([Event.CampaignCreated 1 1 100 10 20] : List Event).length = 1 :=
  claim_C8_one_event_amended.1 initState
    (createdState initState 1 100 10 20 "m") 1 0 100 10 20 "m" 1
    [Event.CampaignCreated 1 1 100 10 20] rfl

/-! ### Reward tiers -/

/-- The tier at position `idx` of campaign `cid`, if any. -/
def tierAt (s : State) (cid idx : Nat) : Option Reward :=
  (s.campaignRewards cid)[idx]?

/-- The two tier facts of one step when the tier slot is untouched and the
step emits no `RewardClaimed` event for it. -/
theorem tierFacts_of_eq {s s1 : State} {cid idx : Nat} {evs : List Event}
    (ht : tierAt s1 cid idx = tierAt s cid idx)
    (hrc : rcCount cid idx evs = 0) :
    (tierAt s cid idx = none →
      rcCount cid idx evs = 0 ∧
      (tierAt s1 cid idx = none ∨
       ∃ r1, tierAt s1 cid idx = some r1 ∧ r1.claimedCount = 0)) ∧
    (∀ r, tierAt s cid idx = some r →
      ∃ r1, tierAt s1 cid idx = some r1 ∧
        r1.quantityAvailable = r.quantityAvailable ∧
        r1.minimumContribution = r.minimumContribution ∧
        r1.claimedCount = r.claimedCount + rcCount cid idx evs) :=
  ⟨fun hn => ⟨hrc, Or.inl (ht.trans hn)⟩,
   fun r hr => ⟨r, ht.trans hr, rfl, rfl, by omega⟩⟩

/-- Tier evolution in one transaction: a missing tier slot receives no
`RewardClaimed` event and can only come into existence with
`claimedCount = 0`; an existing tier keeps its `quantityAvailable` and
`minimumContribution`, and its `claimedCount` grows by exactly the number
of `RewardClaimed` events the step emits for it. -/
theorem tier_step {s : State} {cid idx : Nat} (op : Op) :
    (tierAt s cid idx = none →
      rcCount cid idx (stepRes s op).2 = 0 ∧
      (tierAt (stepRes s op).1 cid idx = none ∨
       ∃ r1, tierAt (stepRes s op).1 cid idx = some r1 ∧
         r1.claimedCount = 0)) ∧
    (∀ r, tierAt s cid idx = some r →
      ∃ r1, tierAt (stepRes s op).1 cid idx = some r1 ∧
        r1.quantityAvailable = r.quantityAvailable ∧
        r1.minimumContribution = r.minimumContribution ∧
        r1.claimedCount = r.claimedCount +
          rcCount cid idx (stepRes s op).2) := by
  cases op with
  | create sender now goal startAt endAt uri =>
      rcases stepRes_create_cases s sender now goal startAt endAt uri with
        h | ⟨_, _, _, _, h⟩ <;> rw [h]
      · exact tierFacts_of_eq rfl rfl
      · exact tierFacts_of_eq rfl
          (by simp [rcCount, Event.isRewardClaimOn])
  | addReward sender now campaignId title description minC qty =>
      rcases stepRes_addReward_cases s sender now campaignId title description
          minC qty with h | ⟨_, _, _, h⟩ <;> rw [h]
      · exact tierFacts_of_eq rfl rfl
      · by_cases hc : cid = campaignId
        case neg =>
          refine tierFacts_of_eq ?_ rfl
          show ((rewardAddedState s campaignId _).campaignRewards cid)[idx]?
            = (s.campaignRewards cid)[idx]?
          simp [rewardAddedState, hc]
        subst hc
        have hlist : (rewardAddedState s cid
            { title := title, description := description,
              minimumContribution := minC, quantityAvailable := qty,
              claimedCount := 0 }).campaignRewards cid =
            s.campaignRewards cid ++
              [{ title := title, description := description,
                 minimumContribution := minC, quantityAvailable := qty,
                 claimedCount := 0 }] := by
          simp [rewardAddedState]
        constructor
        · intro hn
          refine ⟨rfl, ?_⟩
          have hlen : (s.campaignRewards cid).length ≤ idx := by
            by_contra hlt
            rw [tierAt, List.getElem?_eq_getElem (Nat.lt_of_not_le hlt)]
              at hn
            exact Option.noConfusion hn
          by_cases heq : idx = (s.campaignRewards cid).length
          · have hsome : tierAt (rewardAddedState s cid
                { title := title, description := description,
                  minimumContribution := minC, quantityAvailable := qty,
                  claimedCount := 0 }) cid idx = some
                { title := title, description := description,
                  minimumContribution := minC, quantityAvailable := qty,
                  claimedCount := 0 } := by
              rw [tierAt, hlist, heq]
              exact List.getElem?_concat_length _ _
            exact Or.inr ⟨_, hsome, rfl⟩
          · refine Or.inl ?_
            rw [tierAt, hlist, List.getElem?_append_right hlen]
            have : 1 ≤ idx - (s.campaignRewards cid).length := by omega
            rw [List.getElem?_eq_none]
            simpa using this
        · intro r hr
          have hlt : idx < (s.campaignRewards cid).length := by
            by_contra hge
            rw [tierAt, List.getElem?_eq_none (Nat.le_of_not_lt hge)] at hr
            exact Option.noConfusion hr
          refine ⟨r, ?_, rfl, rfl, rfl⟩
          rw [tierAt, hlist, List.getElem?_append_left hlt]
          exact hr
  | pledge sender now value campaignId rewardIndex =>
      rcases stepRes_pledge_cases s sender now value campaignId rewardIndex
        with h | ⟨_, _, _, _, ⟨_, h⟩ | ⟨h5, _, _, h7, h⟩⟩ <;> rw [h]
      · exact tierFacts_of_eq rfl rfl
      · refine tierFacts_of_eq ?_ (by simp [rcCount, Event.isRewardClaimOn])
        show ((pledgedState s sender value campaignId
            (s.campaignRewards campaignId)).campaignRewards cid)[idx]?
          = (s.campaignRewards cid)[idx]?
        by_cases hc : cid = campaignId
        · subst hc; simp [pledgedState]
        · simp [pledgedState, hc]
      · by_cases hc : cid = campaignId
        case neg =>
          refine tierFacts_of_eq ?_ ?_
          · show ((pledgedState s sender value campaignId _).campaignRewards
                cid)[idx]? = (s.campaignRewards cid)[idx]?
            simp [pledgedState, hc]
          · have : ¬ campaignId = cid := fun hcc => hc hcc.symm
            simp [rcCount, Event.isRewardClaimOn, this]
        subst hc
        have hlist : (pledgedState s sender value cid
            ((s.campaignRewards cid).set rewardIndex
              { (s.campaignRewards cid)[rewardIndex] with
                  claimedCount :=
                    (s.campaignRewards cid)[rewardIndex].claimedCount
                      + 1 })).campaignRewards cid =
            (s.campaignRewards cid).set rewardIndex
              { (s.campaignRewards cid)[rewardIndex] with
                  claimedCount :=
                    (s.campaignRewards cid)[rewardIndex].claimedCount
                      + 1 } := by
          simp [pledgedState]
        by_cases hi : rewardIndex = idx
        case neg =>
          refine tierFacts_of_eq ?_ ?_
          · show ((pledgedState s sender value cid _).campaignRewards
                cid)[idx]? = (s.campaignRewards cid)[idx]?
            rw [hlist]
            exact List.getElem?_set_ne hi
          · simp [rcCount, Event.isRewardClaimOn, hi]
        subst hi
        constructor
        · intro hn
          rw [tierAt, List.getElem?_eq_getElem h5] at hn
          exact Option.noConfusion hn
        · intro r hr
          rw [tierAt, List.getElem?_eq_getElem h5] at hr
          obtain hr2 := Option.some.inj hr
          have hsome : tierAt (pledgedState s sender value cid
              ((s.campaignRewards cid).set rewardIndex
                { (s.campaignRewards cid)[rewardIndex] with
                    claimedCount :=
                      (s.campaignRewards cid)[rewardIndex].claimedCount
                        + 1 })) cid rewardIndex = some
              { (s.campaignRewards cid)[rewardIndex] with
                  claimedCount :=
                    (s.campaignRewards cid)[rewardIndex].claimedCount
                      + 1 } := by
            rw [tierAt, hlist]
            exact List.getElem?_set_self h5
          refine ⟨_, hsome, ?_, ?_, ?_⟩
          · rw [← hr2]
          · rw [← hr2]
          · rw [← hr2]
            simp [rcCount, Event.isRewardClaimOn]
  | withdraw sender now transferOk campaignId =>
      rcases stepRes_withdraw_cases s sender now transferOk campaignId with
        h | ⟨_, _, _, _, _, _, h⟩ <;> rw [h]
      · exact tierFacts_of_eq rfl rfl
      · exact tierFacts_of_eq rfl (by simp [rcCount, Event.isRewardClaimOn])
  | refund sender now transferOk campaignId =>
      rcases stepRes_refund_cases s sender now transferOk campaignId with
        h | ⟨_, _, _, _, _, h⟩ <;> rw [h]
      · exact tierFacts_of_eq rfl rfl
      · exact tierFacts_of_eq rfl (by simp [rcCount, Event.isRewardClaimOn])

/-- Trace-level tier evolution: a tier slot that is empty at the start of a
trace ends with `claimedCount` equal to the number of `RewardClaimed`
events the trace emitted for it; an existing tier keeps its quantity and
minimum, and its `claimedCount` grows by exactly that number. -/
theorem runFrom_tier {s : State} {cid idx : Nat} (ops : List Op) :
    (tierAt s cid idx = none →
      ∀ r2, tierAt (runFrom s ops).1 cid idx = some r2 →
        r2.claimedCount = rcCount cid idx (runFrom s ops).2) ∧
    (∀ r, tierAt s cid idx = some r →
      ∃ r2, tierAt (runFrom s ops).1 cid idx = some r2 ∧
        r2.quantityAvailable = r.quantityAvailable ∧
        r2.minimumContribution = r.minimumContribution ∧
        r2.claimedCount = r.claimedCount +
          rcCount cid idx (runFrom s ops).2) := by
  induction ops generalizing s with
  | nil =>
      constructor
      · intro hn r2 h2
        have h2b : tierAt s cid idx = some r2 := h2
        rw [hn] at h2b
        exact Option.noConfusion h2b
      · intro r hr
        refine ⟨r, hr, rfl, rfl, ?_⟩
        have : rcCount cid idx (runFrom s []).2 = 0 := rfl
        omega
  | cons op ops ih =>
      have hsplit : rcCount cid idx (runFrom s (op :: ops)).2 =
          rcCount cid idx (stepRes s op).2 +
            rcCount cid idx (runFrom (stepRes s op).1 ops).2 := by
        show rcCount cid idx
          ((stepRes s op).2 ++ (runFrom (stepRes s op).1 ops).2) = _
        rw [rcCount_append]
      have hstate : (runFrom s (op :: ops)).1 =
          (runFrom (stepRes s op).1 ops).1 := rfl
      obtain ⟨ihn, ihs⟩ := @ih (stepRes s op).1
      obtain ⟨stepn, steps⟩ := @tier_step s cid idx op
      constructor
      · intro hn r2 h2
        obtain ⟨hrc0, hcase⟩ := stepn hn
        rw [hstate] at h2
        rw [hsplit, hrc0]
        rcases hcase with hnone | ⟨r1, hsome1, hcl1⟩
        · have := ihn hnone r2 h2
          omega
        · obtain ⟨r2b, hsome2, hq, hm, hc⟩ := ihs r1 hsome1
          rw [h2] at hsome2
          obtain rfl := Option.some.inj hsome2
          omega
      · intro r hr
        obtain ⟨r1, hsome1, hq1, hm1, hc1⟩ := steps r hr
        obtain ⟨r2, hsome2, hq2, hm2, hc2⟩ := ihs r1 hsome1
        refine ⟨r2, by rw [hstate]; exact hsome2, hq2.trans hq1,
          hm2.trans hm1, ?_⟩
        rw [hsplit]
        omega

/-- The scarcity invariant: every tier with positive `quantityAvailable`
has `claimedCount ≤ quantityAvailable`. -/
def TierInv (s : State) : Prop :=
  ∀ cid idx r, tierAt s cid idx = some r → 0 < r.quantityAvailable →
    r.claimedCount ≤ r.quantityAvailable

theorem tierInv_init : TierInv initState := by
  intro cid idx r h _
  have h2 : (([] : List Reward))[idx]? = some r := h
  rw [List.getElem?_eq_none (by simp)] at h2
  exact Option.noConfusion h2

/-- Every transaction preserves the scarcity invariant. -/
theorem tierInv_step {s : State} (op : Op) (hT : TierInv s) :
    TierInv (stepRes s op).1 := by
  cases op with
  | create sender now goal startAt endAt uri =>
      rcases stepRes_create_cases s sender now goal startAt endAt uri with
        h | ⟨_, _, _, _, h⟩ <;> rw [h]
      · exact hT
      · exact fun cid idx r hr => hT cid idx r hr
  | addReward sender now campaignId title description minC qty =>
      rcases stepRes_addReward_cases s sender now campaignId title description
          minC qty with h | ⟨_, _, _, h⟩ <;> rw [h]
      · exact hT
      · intro cid idx r hr hq
        by_cases hc : cid = campaignId
        case neg =>
          have hr2 : tierAt s cid idx = some r := by
            rw [tierAt] at hr ⊢
            have : (rewardAddedState s campaignId
                { title := title, description := description,
                  minimumContribution := minC, quantityAvailable := qty,
                  claimedCount := 0 }).campaignRewards cid =
                s.campaignRewards cid := by
              simp [rewardAddedState, hc]
            rwa [this] at hr
          exact hT cid idx r hr2 hq
        subst hc
        have hr2 : (s.campaignRewards cid ++
            [{ title := title, description := description,
               minimumContribution := minC, quantityAvailable := qty,
               claimedCount := 0 }])[idx]? = some r := by
          have : (rewardAddedState s cid
              { title := title, description := description,
                minimumContribution := minC, quantityAvailable := qty,
                claimedCount := 0 }).campaignRewards cid =
              s.campaignRewards cid ++
                [{ title := title, description := description,
                   minimumContribution := minC, quantityAvailable := qty,
                   claimedCount := 0 }] := by
            simp [rewardAddedState]
          rw [tierAt, this] at hr
          exact hr
        by_cases hlt : idx < (s.campaignRewards cid).length
        · rw [List.getElem?_append_left hlt] at hr2
          exact hT cid idx r hr2 hq
        · rw [List.getElem?_append_right (Nat.le_of_not_lt hlt)] at hr2
          by_cases heq : idx = (s.campaignRewards cid).length
          · rw [heq, Nat.sub_self] at hr2
            have : r = { title := title, description := description,
                         minimumContribution := minC,
                         quantityAvailable := qty, claimedCount := 0 } := by
              simpa using hr2.symm
            rw [this]
            exact Nat.zero_le _
          · have h1 : 1 ≤ idx - (s.campaignRewards cid).length := by omega
            rw [List.getElem?_eq_none (by simpa using h1)] at hr2
            exact Option.noConfusion hr2
  | pledge sender now value campaignId rewardIndex =>
      rcases stepRes_pledge_cases s sender now value campaignId rewardIndex
        with h | ⟨_, _, _, _, ⟨_, h⟩ | ⟨h5, _, h6, h7, h⟩⟩ <;> rw [h]
      · exact hT
      · intro cid idx r hr hq
        have hr2 : tierAt s cid idx = some r := by
          rw [tierAt] at hr ⊢
          have : (pledgedState s sender value campaignId
              (s.campaignRewards campaignId)).campaignRewards cid =
              s.campaignRewards cid := by
            by_cases hc : cid = campaignId
            · subst hc; simp [pledgedState]
            · simp [pledgedState, hc]
          rwa [this] at hr
        exact hT cid idx r hr2 hq
      · intro cid idx r hr hq
        by_cases hc : cid = campaignId
        case neg =>
          have hr2 : tierAt s cid idx = some r := by
            rw [tierAt] at hr ⊢
            have hpr : (pledgedState s sender value campaignId
                ((s.campaignRewards campaignId).set rewardIndex
                  { (s.campaignRewards campaignId)[rewardIndex] with
                      claimedCount :=
                        (s.campaignRewards
                          campaignId)[rewardIndex].claimedCount
                          + 1 })).campaignRewards cid =
                s.campaignRewards cid := by
              simp [pledgedState, hc]
            rwa [hpr] at hr
          exact hT cid idx r hr2 hq
        subst hc
        have hlist : (pledgedState s sender value cid
            ((s.campaignRewards cid).set rewardIndex
              { (s.campaignRewards cid)[rewardIndex] with
                  claimedCount :=
                    (s.campaignRewards cid)[rewardIndex].claimedCount
                      + 1 })).campaignRewards cid =
            (s.campaignRewards cid).set rewardIndex
              { (s.campaignRewards cid)[rewardIndex] with
                  claimedCount :=
                    (s.campaignRewards cid)[rewardIndex].claimedCount
                      + 1 } := by
          simp [pledgedState]
        rw [tierAt, hlist] at hr
        by_cases hi : rewardIndex = idx
        · subst hi
          rw [List.getElem?_set_self h5] at hr
          obtain rfl := Option.some.inj hr
          simpa using h7
        · rw [List.getElem?_set_ne hi] at hr
          exact hT cid idx r hr hq
  | withdraw sender now transferOk campaignId =>
      rcases stepRes_withdraw_cases s sender now transferOk campaignId with
        h | ⟨_, _, _, _, _, _, h⟩ <;> rw [h]
      · exact hT
      · exact fun cid idx r hr => hT cid idx r hr
  | refund sender now transferOk campaignId =>
      rcases stepRes_refund_cases s sender now transferOk campaignId with
        h | ⟨_, _, _, _, _, h⟩ <;> rw [h]
      · exact hT
      · exact fun cid idx r hr => hT cid idx r hr

theorem runFrom_tierInv {s : State} (ops : List Op) (hT : TierInv s) :
    TierInv (runFrom s ops).1 := by
  induction ops generalizing s with
  | nil => exact hT
  | cons op ops ih => exact ih (tierInv_step op hT)

/-- C4.  Reward scarcity: in every reachable state, a tier with
`quantityAvailable = N > 0` has `claimedCount ≤ N`; the number of
`RewardClaimed` events the trace emitted for the tier equals its current
`claimedCount` and so never exceeds N (at most N pledges claiming it ever
succeed); and once `claimedCount` has reached N, any pledge referencing the
tier that passes the earlier checks fails with `RewardSoldOut`. -/
theorem claim_C4_reward_scarcity :
    (∀ (tr : List Op) (cid idx : Nat) (r2 : Reward),
      tierAt (runTrace tr).1 cid idx = some r2 →
      0 < r2.quantityAvailable →
      r2.claimedCount ≤ r2.quantityAvailable ∧
      rcCount cid idx (runTrace tr).2 = r2.claimedCount ∧
      rcCount cid idx (runTrace tr).2 ≤ r2.quantityAvailable) ∧
    (∀ (s : State) (sender now value cid idx : Nat),
      (s.campaigns cid).creator ≠ 0 →
      (s.campaigns cid).startAt ≤ now → now ≤ (s.campaigns cid).endAt →
      value ≠ 0 →
      ∀ h5 : idx < (s.campaignRewards cid).length,
      (s.campaignRewards cid)[idx].minimumContribution ≤ value →
      0 < (s.campaignRewards cid)[idx].quantityAvailable →
      (s.campaignRewards cid)[idx].claimedCount =
        (s.campaignRewards cid)[idx].quantityAvailable →
      pledge s sender now value cid idx = .error .RewardSoldOut) := by
  constructor
  · intro tr cid idx r2 h2 hq
    have hcl : r2.claimedCount ≤ r2.quantityAvailable :=
      runFrom_tierInv tr tierInv_init cid idx r2 h2 hq
    have hstart : tierAt initState cid idx = none := by
      rw [tierAt]
      exact List.getElem?_eq_none (by simp [initState])
    have hrc : r2.claimedCount = rcCount cid idx (runTrace tr).2 :=
      (runFrom_tier tr).1 hstart r2 h2
    exact ⟨hcl, hrc.symm, by omega⟩
  · intro s sender now value cid idx h1 h2 h3 h4 h5 h6 h7 h8
    have h9 : ¬ value < (s.campaignRewards cid)[idx].minimumContribution :=
      Nat.not_lt.mpr h6
    have h10 : ¬ (s.campaignRewards cid)[idx].claimedCount <
        (s.campaignRewards cid)[idx].quantityAvailable := by omega
    simp [pledge, h1, h2, h3, h4, h5, h9, h7, h10]

/-- Witness state for C4: campaign 1 is active and carries one tier with
`quantityAvailable = 1` whose single unit is already claimed. -/
def sW4 : State :=
  { campaignCount := 1
    campaigns := fun i =>
      if i = 1 then
        { creator := 1, goal := 100, pledged := 60, startAt := 10,
          endAt := 20, claimed := false, metadataURI := "m" }
      else defaultCampaign
    campaignRewards := fun i =>
      if i = 1 then
        [{ title := "t", description := "d", minimumContribution := 50,
           quantityAvailable := 1, claimedCount := 1 }]
      else []
    pledgedAmounts := fun i a => if i = 1 ∧ a = 7 then 60 else 0
    totalContributed := fun a => if a = 7 then 60 else 0 }

theorem claim_C4_reward_scarcity_witness :
    pledge sW4 9 15 60 1 0 = .error .RewardSoldOut :=
  claim_C4_reward_scarcity.2 sW4 9 15 60 1 0 (by decide) (by decide)
    (by decide) (by decide) (by decide) (by decide) (by decide) (by decide)
